import Mathlib

/-!
Verification development for the jcc C front-end (repository c8ef/jcc).

The definitions below are a shallow embedding of `src/src/parser.cc` (the
current version, before the related-doc separator) together with the AST
declarations of `src/include/jcc/expr.h`, `decl.h` and `stmt.h`.  Parts of
the repository that are not under `src/` (the lexer, `token.h`, `type.h`,
`parser.h`, `declarator.h`, and the `.cc` files of the AST classes) are
modelled from the specification `spec.md`; every such definition carries a
doc comment starting with `Modelled from the spec:`.

The token stream is a list of tokens; the lexer yields `Eof` forever once
the buffer is exhausted (spec section 4.1), so the current token of an
empty list is an `Eof` token.  Parsing is embedded as a fuel-indexed state
monad: `.ok` is a normal return, `.err` models the fatal aborts
(`jcc_unreachable`, `jcc_unimplemented`, failed asserts, and null-pointer
dereferences, all of which terminate the process), and `.fuelOut` means the
fuel budget ran out before the code returned.
-/

/-- Token kinds of the jcc lexer, as referenced by `src/src/parser.cc`. -/
inductive TokenKind where
  | Comma | Equal | StarEqual | SlashEqual | PercentEqual | PlusEqual | MinusEqual
  | LeftShiftEqual | RightShiftEqual | AmpersandEqual | CarretEqual | PipeEqual
  | Question | Colon | PipePipe | AmpersandAmpersand | Pipe | Carret | Ampersand
  | EqualEqual | ExclaimEqual | Greater | GreaterEqual | Less | LessEqual
  | LeftShift | RightShift | Plus | Minus | Percent | Slash | Star
  | PlusPlus | MinusMinus | Arrow | Period | Semi
  | LeftParen | RightParen | LeftSquare | RightSquare | LeftBracket | RightBracket
  | Auto | Break | Case | Char | Const | Continue | Default | Do | Double | Else
  | Enum | Extern | Float | For | Goto | If | Inline | Int | Long | Register
  | Restrict | Return | Short | Signed | Static | Struct | Switch | Typedef
  | Union | Unsigned | Void | Volatile | While
  | DashAlignas | DashAtmoic | DashBool | DashComplex | DashNoReturn | DashThreadLocal
  | Identifier | NumericConstant | StringLiteral | Eof
deriving DecidableEq

/-- A token: a kind together with its lexeme text (source ranges are not
load-bearing for any claim and are omitted). -/
structure Token where
  kind : TokenKind
  text : String
deriving DecidableEq

/-- Modelled from the spec: the binary-operator precedence levels
(`BinOpPreLevel`, declared in the parser header which is not under `src/`).
Spec section 4.2.5 lists the levels in increasing order, with `Unknown`
below all of them. -/
inductive BinOpPreLevel where
  | Unknown | Comma | Assignment | Conditional | LogicalOr | LogicalAnd
  | InclusiveOr | ExclusiveOr | And | Equality | Relational | Shift
  | Additive | Multiplicative
deriving DecidableEq

/-- Numeric value of a precedence level, spec order. -/
def BinOpPreLevel.toNat : BinOpPreLevel → Nat
  | .Unknown => 0
  | .Comma => 1
  | .Assignment => 2
  | .Conditional => 3
  | .LogicalOr => 4
  | .LogicalAnd => 5
  | .InclusiveOr => 6
  | .ExclusiveOr => 7
  | .And => 8
  | .Equality => 9
  | .Relational => 10
  | .Shift => 11
  | .Additive => 12
  | .Multiplicative => 13

/-- `GetBinOpPrecedence` of `src/src/parser.cc` lines 17-65: maps an operator
token to its precedence level; every unlisted kind is `Unknown`. -/
def GetBinOpPrecedence (kind : TokenKind) : BinOpPreLevel :=
  match kind with
  | .Comma => .Comma
  | .Equal | .StarEqual | .SlashEqual | .PercentEqual | .PlusEqual | .MinusEqual
  | .LeftShiftEqual | .RightShiftEqual | .AmpersandEqual | .CarretEqual
  | .PipeEqual => .Assignment
  | .Question => .Conditional
  | .PipePipe => .LogicalOr
  | .AmpersandAmpersand => .LogicalAnd
  | .Pipe => .InclusiveOr
  | .Carret => .ExclusiveOr
  | .Ampersand => .And
  | .EqualEqual => .Equality
  | .Greater | .LessEqual | .Less | .GreaterEqual => .Relational
  | .LeftShift => .Shift
  | .Plus | .Minus => .Additive
  | .Percent | .Slash | .Star => .Multiplicative
  | _ => .Unknown

/-- The binary operator kinds used by the parser.  `src/include/jcc/expr.h`
in this snapshot lists a subset, but `ConvertOpToKind` in
`src/src/parser.cc` (the authority for what the parser constructs)
uses exactly these fourteen. -/
inductive BinaryOperatorKind where
  | Plus | PlusEqual | Minus | MinusEqual | Multiply | MultiplyEqual
  | Divide | DivideEqual | Greater | GreaterEqual | Less | LessEqual
  | Equal | EqualEqual
deriving DecidableEq

/-- The unary operator kinds of `src/include/jcc/expr.h`. -/
inductive UnaryOperatorKind where
  | PreIncrement | PreDecrement | PostIncrement | PostDecrement
  | AddressOf | Deref | Plus | Minus
deriving DecidableEq

/-- `ConvertOpToKind` of `src/src/parser.cc` lines 833-866.  `none` models the
`jcc_unimplemented()` fatal default. -/
def ConvertOpToKind (kind : TokenKind) : Option BinaryOperatorKind :=
  match kind with
  | .Plus => some .Plus
  | .PlusEqual => some .PlusEqual
  | .Minus => some .Minus
  | .MinusEqual => some .MinusEqual
  | .Star => some .Multiply
  | .StarEqual => some .MultiplyEqual
  | .Slash => some .Divide
  | .SlashEqual => some .DivideEqual
  | .Greater => some .Greater
  | .GreaterEqual => some .GreaterEqual
  | .Less => some .Less
  | .LessEqual => some .LessEqual
  | .Equal => some .Equal
  | .EqualEqual => some .EqualEqual
  | _ => none

/-- Modelled from the spec: the type system (`type.h` is not under `src/`).
Spec section 3: a tagged sum with the listed variants; `Type*` fields of
the source are nullable, so every stored base/return type is an `Option`.
Array lengths are the `int` the parser passes to `CreateArrayType`. -/
inductive Ty where
  | Void
  | Bool
  | Char (unsigned : Bool)
  | Short (unsigned : Bool)
  | Int (unsigned : Bool)
  | Long (unsigned : Bool)
  | LongLong (unsigned : Bool)
  | Float
  | Double
  | LongDouble
  | Pointer (base : Option Ty)
  | Array (base : Option Ty) (length : Nat)
  | Func (ret : Option Ty) (params : List (Option Ty))
  | Record (isUnion : Bool) (name : Option String) (members : List (Option Ty))

/-- The `TypeKind` tag used by `GetTypeKind` comparisons in the parser. -/
inductive TypeKind where
  | Void | Bool | Char | Short | Int | Long | LongLong | Float | Double
  | LongDouble | Pointer | Array | Func | Struct | Union
deriving DecidableEq

/-- The kind tag of a type. -/
def Ty.kind : Ty → TypeKind
  | .Void => .Void
  | .Bool => .Bool
  | .Char _ => .Char
  | .Short _ => .Short
  | .Int _ => .Int
  | .Long _ => .Long
  | .LongLong _ => .LongLong
  | .Float => .Float
  | .Double => .Double
  | .LongDouble => .LongDouble
  | .Pointer _ => .Pointer
  | .Array _ _ => .Array
  | .Func _ _ => .Func
  | .Record false _ _ => .Struct
  | .Record true _ _ => .Union

/-- Modelled from the spec: `ASTContext::GetIntType` (the context sources are
not under `src/`); spec section 4.3 makes plain `int` the 32-bit signed
integer. -/
def GetIntType : Ty := .Int false

/-- Modelled from the spec: `ASTContext::GetCharType`; plain `char` is the
signed character type. -/
def GetCharType : Ty := .Char false

/-- Modelled from the spec: the storage-class field of `DeclSpec`
(`declarator.h` is not under `src/`).  Spec section 3: storage class is an
element of the set, so a later specifier overwrites an earlier one. -/
inductive StorageClassSpec where
  | Unspecified | Typedef | Extern | Static | ThreadLocal
deriving DecidableEq

/-- Modelled from the spec: the function-specifier field of `DeclSpec`. -/
inductive FunctionSpec where
  | Unspecified | Inline
deriving DecidableEq

/-- Modelled from the spec: the type-spec kind of `DeclSpec`
(void/bool/char/int/float/double/unspecified). -/
inductive TypeSpecKind where
  | Unspecified | Void | Bool | Char | Int | Float | Double
deriving DecidableEq

/-- Modelled from the spec: the width field of `DeclSpec`. -/
inductive TypeSpecWidth where
  | Unspecified | Short | Long | LongLong
deriving DecidableEq

/-- Modelled from the spec: the sign field of `DeclSpec`. -/
inductive TypeSpecSign where
  | Unspecified | Signed | Unsigned
deriving DecidableEq

/-- Modelled from the spec: `DeclSpec`, the mutable specifier accumulator
(spec section 3).  `ty` is the `Type*` the accumulator currently holds
(set by `SetType` or by `SynthesizeType`); it starts null. -/
structure DeclSpec where
  storage : StorageClassSpec := .Unspecified
  funcSpec : FunctionSpec := .Unspecified
  atomicQual : Bool := false
  tsk : TypeSpecKind := .Unspecified
  width : TypeSpecWidth := .Unspecified
  sign : TypeSpecSign := .Unspecified
  ty : Option Ty := none

def DeclSpec.SetStorageClassSpec (ds : DeclSpec) (v : StorageClassSpec) : DeclSpec :=
  { ds with storage := v }

def DeclSpec.SetFunctionSpec (ds : DeclSpec) (v : FunctionSpec) : DeclSpec :=
  { ds with funcSpec := v }

def DeclSpec.SetTypeSpecKind (ds : DeclSpec) (v : TypeSpecKind) : DeclSpec :=
  { ds with tsk := v }

def DeclSpec.SetTypeSpecWidth (ds : DeclSpec) (v : TypeSpecWidth) : DeclSpec :=
  { ds with width := v }

def DeclSpec.SetTypeSpecSign (ds : DeclSpec) (v : TypeSpecSign) : DeclSpec :=
  { ds with sign := v }

def DeclSpec.SetType (ds : DeclSpec) (t : Option Ty) : DeclSpec :=
  { ds with ty := t }

def DeclSpec.SetAtomic (ds : DeclSpec) : DeclSpec :=
  { ds with atomicQual := true }

def DeclSpec.IsTypedef (ds : DeclSpec) : Bool := ds.storage == .Typedef

def DeclSpec.IsStatic (ds : DeclSpec) : Bool := ds.storage == .Static

def DeclSpec.IsExtern (ds : DeclSpec) : Bool := ds.storage == .Extern

def DeclSpec.IsThreadLocal (ds : DeclSpec) : Bool := ds.storage == .ThreadLocal

def DeclSpec.IsInline (ds : DeclSpec) : Bool := ds.funcSpec == .Inline

/-- Modelled from the spec: the type-synthesis table of spec section 4.3
(the `DeclSpec` implementation is not under `src/`).  One extension is
forced by the specifier loop calling `SynthesizeType` after every token
(spec section 4.2.3) and by scenario 3 (`typedef unsigned int U` works):
a sign with no type-spec kind and no width synthesises as a 32-bit
integer, as in C. -/
def synthTable (tsk : TypeSpecKind) (w : TypeSpecWidth) (sg : TypeSpecSign) : Option Ty :=
  let uns : Bool := sg == .Unsigned
  match tsk, w, sg with
  | .Void, .Unspecified, .Unspecified => some .Void
  | .Bool, .Unspecified, .Unspecified => some .Bool
  | .Char, .Unspecified, _ => some (.Char uns)
  | .Int, .Unspecified, _ => some (.Int uns)
  | .Int, .Short, _ => some (.Short uns)
  | .Unspecified, .Short, _ => some (.Short uns)
  | .Int, .Long, _ => some (.Long uns)
  | .Unspecified, .Long, _ => some (.Long uns)
  | .Int, .LongLong, _ => some (.LongLong uns)
  | .Unspecified, .LongLong, _ => some (.LongLong uns)
  | .Float, .Unspecified, .Unspecified => some .Float
  | .Double, .Unspecified, .Unspecified => some .Double
  | .Double, .Long, .Unspecified => some .LongDouble
  | .Unspecified, .Unspecified, .Signed => some (.Int false)
  | .Unspecified, .Unspecified, .Unsigned => some (.Int true)
  | _, _, _ => none

/-- Modelled from the spec: `DeclSpec::SynthesizeType`.  With an empty
specifier bag the accumulator is left as it stands (this keeps a type
installed through `SetType` — the override row of the table); with a
non-empty bag the canonical type is computed, and a combination outside
the table is fatal (`none`). -/
def DeclSpec.SynthesizeType (ds : DeclSpec) : Option DeclSpec :=
  if ds.tsk == .Unspecified && ds.width == .Unspecified && ds.sign == .Unspecified then
    some ds
  else
    match synthTable ds.tsk ds.width ds.sign with
    | some t => some (ds.SetType (some t))
    | none => none

mutual

/-- Declarations (`src/include/jcc/decl.h`): variables and functions are the
only kinds the parser constructs.  A function's `ty` is its `FunctionType`
and `ret` the (nullable) return type passed to `FunctionDecl::Create`. -/
inductive Decl where
  | VarDecl (name : String) (ty : Option Ty) (init : Option Expr)
  | FunctionDecl (name : String) (ty : Ty) (ret : Option Ty)
      (params : List Decl) (body : Option Stmt)

/-- Statements (`src/include/jcc/stmt.h`), restricted to the constructors the
parser reaches. -/
inductive Stmt where
  | ReturnStatement (value : Option Expr)
  | CompoundStatement (stmts : List Stmt)
  | DeclStatement (decls : List Decl)
  | IfStatement (cond : Expr) (thenStmt : Stmt) (elseStmt : Option Stmt)
  | WhileStatement (cond : Expr) (body : Stmt)
  | DoStatement (cond : Expr) (body : Stmt)
  | ForStatement (init : Stmt) (cond : Stmt) (inc : Expr) (body : Stmt)
  | SwitchStatement (cond : Expr) (body : Stmt)
  | CaseStatement (stmt : Stmt) (value : Option String) (isDefault : Bool)
  | BreakStatement
  | ContinueStatement
  | ExprStatement (e : Expr)

/-- Expressions (`src/include/jcc/expr.h`).  Every node stores the nullable
`Type*` field `ty` of the `Expr` base class. -/
inductive Expr where
  | IntergerLiteral (ty : Option Ty) (value : Int)
  | StringLiteral (ty : Option Ty) (literal : String)
  | CharacterLiteral (ty : Option Ty) (value : String)
  | DeclRefExpr (ty : Option Ty) (decl : Decl)
  | UnaryExpr (ty : Option Ty) (op : UnaryOperatorKind) (value : Expr)
  | BinaryExpr (ty : Option Ty) (op : BinaryOperatorKind) (lhs : Expr) (rhs : Expr)
  | CallExpr (ty : Option Ty) (callee : Expr) (args : List Expr)

end

/-- The nullable type field of an expression node (`Expr::type_`; the
asserting accessor `Expr::GetType` is modelled separately inside the
parser monad). -/
def Expr.tyField : Expr → Option Ty
  | .IntergerLiteral t _ => t
  | .StringLiteral t _ => t
  | .CharacterLiteral t _ => t
  | .DeclRefExpr t _ => t
  | .UnaryExpr t _ _ => t
  | .BinaryExpr t _ _ _ => t
  | .CallExpr t _ _ => t

/-- Modelled from the spec: `Decl::GetType` as called at
`src/src/parser.cc` line 764 (the declaration sources are not under
`src/`): a variable's declared type, a function's declared function type. -/
def Decl.GetType : Decl → Option Ty
  | .VarDecl _ t _ => t
  | .FunctionDecl _ t _ _ _ => some t

/-- Name of a declaration. -/
def Decl.name : Decl → String
  | .VarDecl n _ _ => n
  | .FunctionDecl n _ _ _ _ => n

/-- Modelled from the spec: one scope frame (spec section 3): a map from
identifiers to declarations and a map from type-name identifiers to
(nullable) types. -/
structure Scope where
  decls : List (String × Decl) := []
  types : List (String × Option Ty) := []

/-- First association for a key. -/
def assocFind (l : List (String × α)) (n : String) : Option α :=
  match l with
  | [] => none
  | p :: rest => if p.1 = n then some p.2 else assocFind rest n

/-- Modelled from the spec: `Parser::Lookup` — walk the scope frames from
innermost to outermost and return the first declaration bound to the
name. -/
def lookupDecl (scopes : List Scope) (n : String) : Option Decl :=
  match scopes with
  | [] => none
  | f :: rest =>
    match assocFind f.decls n with
    | some d => some d
    | none => lookupDecl rest n

/-- Modelled from the spec: `Parser::LookupType` — walk the scope frames from
innermost to outermost; the first frame that binds the name wins, and a
name bound to a null type yields the null type. -/
def lookupType (scopes : List Scope) (n : String) : Option Ty :=
  match scopes with
  | [] => none
  | f :: rest =>
    match assocFind f.types n with
    | some t => t
    | none => lookupType rest n

/-- Install a type alias in the innermost frame (`Scope::PushType`). -/
def pushType (scopes : List Scope) (n : String) (t : Option Ty) : List Scope :=
  match scopes with
  | [] => []
  | f :: rest => { f with types := (n, t) :: f.types } :: rest

/-- Install a declaration in the innermost frame (spec section 4.4
`install_decl`). -/
def pushDecl (scopes : List Scope) (d : Decl) : List Scope :=
  match scopes with
  | [] => []
  | f :: rest => { f with decls := (d.name, d) :: f.decls } :: rest

/-- Install a list of declarations, in order. -/
def pushDecls (scopes : List Scope) (ds : List Decl) : List Scope :=
  match ds with
  | [] => scopes
  | d :: rest => pushDecls (pushDecl scopes d) rest

/-- `Parser::IsType` (`src/src/parser.cc` lines 610-646): type keywords, plus
any identifier currently bound to a non-null type in the scope stack. -/
def IsType (scopes : List Scope) (t : Token) : Bool :=
  match t.kind with
  | .Auto | .Char | .Const | .Default | .Double | .Enum | .Extern | .Float
  | .Inline | .Int | .Long | .Register | .Restrict | .Short | .Signed
  | .Static | .Struct | .Typedef | .Union | .Unsigned | .Void | .Volatile
  | .DashAlignas | .DashAtmoic | .DashBool | .DashComplex | .DashNoReturn
  | .DashThreadLocal => true
  | _ => (lookupType scopes t.text).isSome

/-- The parser state: the not-yet-consumed token stream and the scope
stack (innermost frame first). -/
structure PState where
  toks : List Token
  scopes : List Scope
deriving Inhabited

/-- The current token: head of the stream, or `Eof` forever past the end of
the buffer (spec section 4.1). -/
def curTok (s : PState) : Token :=
  match s.toks with
  | [] => { kind := .Eof, text := "" }
  | t :: _ => t

/-- The one-token lookahead (`Parser::NextToken` with its single-slot cache
is observationally a pure peek at the next stream element). -/
def peekedTok (s : PState) : Token :=
  match s.toks with
  | [] => { kind := .Eof, text := "" }
  | [_] => { kind := .Eof, text := "" }
  | _ :: t :: _ => t

/-- Advance past the current token. -/
def consume1 (s : PState) : PState :=
  { s with toks := s.toks.tail }

/-- Outcome of running a parser action. -/
inductive PRes (α : Type) where
  | ok (a : α) (s : PState)
  | err (msg : String)
  | fuelOut

/-- The parser monad: fatal aborts short-circuit, as does fuel
exhaustion. -/
def M (α : Type) : Type := PState → PRes α

def M.pure (a : α) : M α := fun s => .ok a s

def M.bind (m : M α) (f : α → M β) : M β := fun s =>
  match m s with
  | .ok a s2 => f a s2
  | .err e => .err e
  | .fuelOut => .fuelOut

instance : Monad M where
  pure := M.pure
  bind := M.bind

/-- `jcc_unreachable` / `jcc_unimplemented` / a failing assert / a null
dereference: the process aborts. -/
def pfatal (msg : String) : M α := fun _ => .err msg

/-- `Parser::CurrentToken`. -/
def getCurTok : M Token := fun s => .ok (curTok s) s

/-- `Parser::NextToken` (pure lookahead, see `peekedTok`). -/
def peekTok : M Token := fun s => .ok (peekedTok s) s

/-- `Parser::ConsumeToken` (the returned token is re-read via `getCurTok`
where the source uses the return value). -/
def doConsume : M Unit := fun s => .ok () (consume1 s)

/-- `Parser::TryConsumeToken`. -/
def TryConsumeToken (k : TokenKind) : M Bool := fun s =>
  if (curTok s).kind = k then .ok true (consume1 s) else .ok false s

/-- `Parser::MustConsumeToken`: consume a token of the expected kind or
abort. -/
def MustConsumeToken (k : TokenKind) : M Unit := fun s =>
  if (curTok s).kind = k then .ok () (consume1 s)
  else .err "MustConsumeToken"

/-- `Parser::IsType` lifted to the monad. -/
def IsTypeM (t : Token) : M Bool := fun s => .ok (IsType s.scopes t) s

/-- `Parser::Lookup` lifted to the monad. -/
def LookupM (n : String) : M (Option Decl) := fun s => .ok (lookupDecl s.scopes n) s

/-- `Parser::LookupType` lifted to the monad. -/
def LookupTypeM (n : String) : M (Option Ty) := fun s => .ok (lookupType s.scopes n) s

/-- Scope entry (`ScopeRAII` constructor). -/
def EnterScope : M Unit := fun s => .ok () { s with scopes := {} :: s.scopes }

/-- Scope exit (`ScopeRAII` destructor); the file scope is always present. -/
def ExitScope : M Unit := fun s => .ok () { s with scopes := s.scopes.tail }

/-- `Scope::PushType` on the current scope. -/
def PushTypeM (n : String) (t : Option Ty) : M Unit := fun s =>
  .ok () { s with scopes := pushType s.scopes n t }

/-- Modelled from the spec: install a declaration in the current scope
(spec section 4.4; the installing code is not under `src/`). -/
def PushDeclM (d : Decl) : M Unit := fun s =>
  .ok () { s with scopes := pushDecl s.scopes d }

/-- Modelled from the spec: install a list of declarations in the current
scope. -/
def PushDeclsM (ds : List Decl) : M Unit := fun s =>
  .ok () { s with scopes := pushDecls s.scopes ds }

/-- `Expr::GetType`: asserts the type is non-null and returns it; the assert
fires (aborts) on a null type. -/
def ExprGetType (e : Expr) : M Ty := fun s =>
  match e.tyField with
  | some t => .ok t s
  | none => .err "Expr type cant be null"

/-- A declarator (spec section 3): pairs its `DeclSpec` with the type built
by the suffixes and the declared name (empty when absent).  Constructed
with the `DeclSpec`'s current type, as `Declarator(decl_spec)` is. -/
structure Declarator where
  declSpec : DeclSpec
  ty : Option Ty
  name : String

/-- `Declarator(decl_spec)`: the shape starts from the specifier's type. -/
def Declarator.init (ds : DeclSpec) : Declarator :=
  { declSpec := ds, ty := ds.ty, name := "" }

/-- `Declarator::GetTypeKind` as used in kind comparisons; on a null type the
source dereferences a null pointer, which aborts. -/
def GetTypeKindM (d : Declarator) : M TypeKind :=
  match d.ty with
  | some t => M.pure t.kind
  | none => pfatal "GetTypeKind on a null type"

/-- Accumulate the leading decimal digits of a character list. -/
def digitsToNat : List Char → Nat → Nat
  | [], acc => acc
  | c :: r, acc =>
    if c.isDigit then digitsToNat r (acc * 10 + (c.toNat - 48)) else acc

/-- `std::stoi` on the numeric lexemes jcc feeds it: the leading run of
decimal digits (the source's FIXME notes this truncates floating
literals). -/
def stoi (s : String) : Int := Int.ofNat (digitsToNat s.data 0)

/-- Modelled from the spec: the type `StringLiteral::Create` resolves for a
string literal (`expr.cc` is not under `src/`; spec section 3 requires
every expression node to carry a resolved type) — the array-of-char of
the literal and its terminator. -/
def StringLiteralType (lit : String) : Ty := .Array (some GetCharType) (lit.length + 1)

/-- Modelled from the spec: `Type::GetNameAsString` (only record types ever
receive a name in the parser; every other type answers the empty
string). -/
def TyNameAsString : Option Ty → String
  | some (.Record _ (some n) _) => n
  | _ => ""

/-- `Parser::CreateParams` (`src/src/parser.cc` lines 565-575): one `VarDecl`
per parameter type, named after the type (the source's TODO notes this
does not work for named parameters). -/
def CreateParams (ps : List (Option Ty)) : List Decl :=
  ps.map fun pt => Decl.VarDecl (TyNameAsString pt) pt none

/-- Modelled from the spec: `declarator.GetType()->AsType<PointerType>()->GetBase()`
as applied in the array branch of `ParseParams`; the `static_cast` reads
the base of a pointer or of an array type (`type.h` is not under `src/`;
spec section 4.2.4 specifies the decay as pointer-to-element). -/
def PointerGetBase : Ty → Option Ty
  | .Pointer b => b
  | .Array b _ => b
  | _ => none

/-- The parameter-type adjustment of `Parser::ParseParams`
(`src/src/parser.cc` lines 362-372): an array declarator decays to a
pointer to its element, a function declarator to a pointer to the
function type, anything else records the specifier's type.  `none` models
the null dereference on a declarator with a null type. -/
def ParamDecayType (ds : DeclSpec) (d : Declarator) : Option (Option Ty) :=
  match d.ty with
  | none => none
  | some t =>
    match t.kind with
    | .Array => some (some (.Pointer (PointerGetBase t)))
    | .Func => some (some (.Pointer (some t)))
    | _ => some ds.ty

/-- The loop of `Parser::SkipUntil` (`src/src/parser.cc` lines 103-110):
consume until the current token has the requested kind.  The stream runs
out of fuel (never returns) when the kind never appears. -/
def SkipUntilLoop : Nat → TokenKind → M Unit
  | 0, _ => fun _ => .fuelOut
  | fuel+1, k => fun s =>
    if (curTok s).kind = k then .ok () s
    else SkipUntilLoop fuel k (consume1 s)
termination_by structural fuel _ => fuel

/-- `Parser::SkipUntil`: loop to the requested kind, then optionally consume
the match. -/
def SkipUntil (fuel : Nat) (k : TokenKind) (skipMatch : Bool) : M Unit := do
  SkipUntilLoop fuel k
  if skipMatch then do
    let c ← getCurTok
    if c.kind == k then doConsume
  else pure ()

/-- The qualifier-skipping inner loop of `Parser::ParsePointers`
(`const`/`volatile`/`restrict` after a star). -/
def SkipPointerQuals : Nat → M Unit
  | 0 => fun _ => .fuelOut
  | fuel+1 => do
    let c ← getCurTok
    if c.kind == .Const || c.kind == .Volatile || c.kind == .Restrict then do
      doConsume
      SkipPointerQuals fuel
    else pure ()
termination_by structural fuel => fuel

/-- The `static`/`restrict` skipping loop at the head of
`Parser::ParseArrayDimensions`. -/
def SkipStaticRestrict : Nat → M Unit
  | 0 => fun _ => .fuelOut
  | fuel+1 => do
    let c ← getCurTok
    if c.kind == .Static || c.kind == .Restrict then do
      doConsume
      SkipStaticRestrict fuel
    else pure ()
termination_by structural fuel => fuel

/-- The storage-class block of `Parser::ParseDeclSpec` (`src/src/parser.cc`
lines 160-194): if the current token is a storage class or `inline`, set
the corresponding `DeclSpec` field, run the typedef-exclusivity check
(fatal when it observes typedef together with static, extern, inline or
thread-local), and consume the token. -/
def DeclSpecStorageClass (ds : DeclSpec) : M DeclSpec := do
  let c ← getCurTok
  if c.kind == .Typedef || c.kind == .Static || c.kind == .Extern ||
      c.kind == .Inline || c.kind == .DashThreadLocal then do
    let ds2 :=
      match c.kind with
      | .Typedef => ds.SetStorageClassSpec .Typedef
      | .Static => ds.SetStorageClassSpec .Static
      | .Extern => ds.SetStorageClassSpec .Extern
      | .Inline => ds.SetFunctionSpec .Inline
      | _ => ds.SetStorageClassSpec .ThreadLocal
    if ds2.IsTypedef &&
        (ds2.IsStatic || ds2.IsExtern || ds2.IsInline || ds2.IsThreadLocal) then
      pfatal "typedef may not be used together with static, extern, inline, __thread or _Thread_local"
    else do
      doConsume
      pure ds2
  else pure ds

/-- The builtin-type switch of `Parser::ParseDeclSpec` (`src/src/parser.cc`
lines 229-272): update the type-spec kind/width/sign for a builtin type
keyword, look an identifier up as a type alias, and abort on any other
token kind. -/
def DeclSpecBuiltinType (ds : DeclSpec) : M DeclSpec := do
  let c ← getCurTok
  match c.kind with
  | .Void => M.pure (ds.SetTypeSpecKind .Void)
  | .DashBool => M.pure (ds.SetTypeSpecKind .Bool)
  | .Char => M.pure (ds.SetTypeSpecKind .Char)
  | .Short => M.pure (ds.SetTypeSpecWidth .Short)
  | .Int => M.pure (ds.SetTypeSpecKind .Int)
  | .Long =>
    if ds.width == .Long then M.pure (ds.SetTypeSpecWidth .LongLong)
    else M.pure (ds.SetTypeSpecWidth .Long)
  | .Float => M.pure (ds.SetTypeSpecKind .Float)
  | .Double => M.pure (ds.SetTypeSpecKind .Double)
  | .Signed => M.pure (ds.SetTypeSpecSign .Signed)
  | .Unsigned => M.pure (ds.SetTypeSpecSign .Unsigned)
  | .Identifier => do
      let ot ← LookupTypeM c.text
      pure (ds.SetType ot)
  | _ => pfatal "current token kind is not a type"

mutual

/-- `Parser::ParseDeclSpec` (`src/src/parser.cc` lines 156-279): the
specifier-accumulation loop, started from a fresh `DeclSpec`. -/
def ParseDeclSpec : Nat → M DeclSpec
  | 0 => fun _ => .fuelOut
  | fuel+1 => ParseDeclSpecLoop fuel {}
termination_by structural fuel => fuel

/-- One iteration of the `while (IsType(CurrentToken()))` loop of
`Parser::ParseDeclSpec`, in source order: storage classes (with the
typedef-exclusivity check), ignored qualifiers, `_Atomic`, `_Alignas`,
struct/union (which returns early), the unimplemented user-defined-type
branch, the builtin-type switch, then `SynthesizeType`. -/
def ParseDeclSpecLoop : Nat → DeclSpec → M DeclSpec
  | 0, _ => fun _ => .fuelOut
  | fuel+1, ds => do
    let t ← getCurTok
    let isT ← IsTypeM t
    if !isT then pure ds
    else do
      let ds ← DeclSpecStorageClass ds
      let c ← getCurTok
      if c.kind == .Const || c.kind == .Auto || c.kind == .Volatile ||
          c.kind == .Register || c.kind == .Restrict || c.kind == .DashNoReturn then
        doConsume
      let ds ← ParseDeclSpecAtomic fuel ds
      ParseDeclSpecTail fuel ds
termination_by structural fuel _ => fuel

/-- The `_Atomic` block of `Parser::ParseDeclSpec` (`src/src/parser.cc` lines
203-209): the comment claims the first `ConsumeToken` eats a `(` but it in
fact eats the `_Atomic` token itself; embedded verbatim. -/
def ParseDeclSpecAtomic : Nat → DeclSpec → M DeclSpec
  | 0, _ => fun _ => .fuelOut
  | fuel+1, ds => do
    let c ← getCurTok
    if c.kind == .DashAtmoic then do
      doConsume
      let t2 ← ParseTypename fuel
      doConsume
      pure ((ds.SetType t2).SetAtomic)
    else pure ds
termination_by structural fuel _ => fuel

/-- The rest of one `Parser::ParseDeclSpec` iteration (`src/src/parser.cc`
lines 211-276): `_Alignas` is fatal, struct/union returns early with the
record type installed, `typedef`/`enum` as type specifiers are fatal,
and otherwise the builtin-type switch runs, the token is consumed,
`SynthesizeType` folds the bag (fatal outside the table), and the
specifier loop continues. -/
def ParseDeclSpecTail : Nat → DeclSpec → M DeclSpec
  | 0, _ => fun _ => .fuelOut
  | fuel+1, ds => do
    let c ← getCurTok
    if c.kind == .DashAlignas then pfatal "unimplemented Alignas"
    let c ← getCurTok
    if c.kind == .Struct || c.kind == .Union then do
      let k := c.kind
      doConsume
      let rt ← ParseRecordType fuel k
      pure (ds.SetType rt)
    else do
      if c.kind == .Typedef || c.kind == .Enum then
        pfatal "unimplemented user defined type"
      let ds ← DeclSpecBuiltinType ds
      doConsume
      match ds.SynthesizeType with
      | some ds2 => ParseDeclSpecLoop fuel ds2
      | none => pfatal "TypeSynthesisError"
termination_by structural fuel _ => fuel

/-- `Parser::ParseTypename`: a specifier followed by a declarator, yielding
its type. -/
def ParseTypename : Nat → M (Option Ty)
  | 0 => fun _ => .fuelOut
  | fuel+1 => do
    let dsp ← ParseDeclSpec fuel
    let d ← ParseDeclarator fuel dsp
    pure d.ty
termination_by structural fuel => fuel

/-- `Parser::ParseRecordType` (`src/src/parser.cc` lines 127-148). -/
def ParseRecordType : Nat → TokenKind → M (Option Ty)
  | 0, _ => fun _ => .fuelOut
  | fuel+1, k => do
    if k == TokenKind.Struct || k == TokenKind.Union then do
      let c ← getCurTok
      let name ← (if c.kind == .Identifier then do
          doConsume
          pure (some c.text)
        else pure (none : Option String))
      let b ← TryConsumeToken .LeftBracket
      let members ← if b then ParseMembersLoop fuel [] else pure ([] : List (Option Ty))
      pure (some (Ty.Record (k == TokenKind.Union) name members))
    else pfatal "Can only parse struct or union here"
termination_by structural fuel _ => fuel

/-- The member loop of `Parser::ParseMembers` (`src/src/parser.cc` lines
112-125). -/
def ParseMembersLoop : Nat → List (Option Ty) → M (List (Option Ty))
  | 0, _ => fun _ => .fuelOut
  | fuel+1, acc => do
    let dsp ← ParseDeclSpec fuel
    let d ← ParseDeclarator fuel dsp
    let acc2 := acc ++ [d.ty]
    MustConsumeToken .Semi
    let b ← TryConsumeToken .RightBracket
    if b then pure acc2 else ParseMembersLoop fuel acc2
termination_by structural fuel _ => fuel

/-- `Parser::ParsePointers` (`src/src/parser.cc` lines 281-291). -/
def ParsePointers : Nat → Option Ty → M (Option Ty)
  | 0, _ => fun _ => .fuelOut
  | fuel+1, t => do
    let b ← TryConsumeToken .Star
    if b then do
      SkipPointerQuals fuel
      ParsePointers fuel (some (Ty.Pointer t))
    else pure t
termination_by structural fuel _ => fuel

/-- `Parser::ParseTypeSuffix` (`src/src/parser.cc` lines 293-301). -/
def ParseTypeSuffix : Nat → Option Ty → M (Option Ty)
  | 0, _ => fun _ => .fuelOut
  | fuel+1, t => do
    let b ← TryConsumeToken .LeftParen
    if b then ParseParams fuel t
    else do
      let b2 ← TryConsumeToken .LeftSquare
      if b2 then ParseArrayDimensions fuel t
      else pure t
termination_by structural fuel _ => fuel

/-- `Parser::ParseDeclarator` (`src/src/parser.cc` lines 303-327).  Note that
in the no-identifier branch the source returns the declarator without
ever calling `SetType`, so its type stays the specifier's type. -/
def ParseDeclarator : Nat → DeclSpec → M Declarator
  | 0, _ => fun _ => .fuelOut
  | fuel+1, ds => do
    let t ← ParsePointers fuel ds.ty
    let b ← TryConsumeToken .LeftParen
    if b then do
      let dummy : DeclSpec := {}
      let _ ← ParseDeclarator fuel dummy
      doConsume
      let suffixTy ← ParseTypeSuffix fuel t
      let suffix : DeclSpec := DeclSpec.SetType {} suffixTy
      ParseDeclarator fuel suffix
    else do
      let c ← getCurTok
      if c.kind == .Identifier then do
        doConsume
        let t2 ← ParseTypeSuffix fuel t
        pure { declSpec := ds, ty := t2, name := c.text }
      else
        pure (Declarator.init ds)
termination_by structural fuel _ => fuel

/-- `Parser::ParseParams` (`src/src/parser.cc` lines 347-385): the `(void)`
and `()` forms yield an empty parameter list; otherwise the parameter
loop runs. -/
def ParseParams : Nat → Option Ty → M (Option Ty)
  | 0, _ => fun _ => .fuelOut
  | fuel+1, t => do
    let c ← getCurTok
    let n ← peekTok
    if (c.kind == .Void && n.kind == .RightParen) || c.kind == .RightParen then do
      SkipUntil fuel .RightParen true
      pure (some (Ty.Func t []))
    else do
      let ps ← ParseParamsLoop fuel []
      pure (some (Ty.Func t ps))
termination_by structural fuel _ => fuel

/-- The parameter loop of `Parser::ParseParams`: each parameter is a
specifier plus declarator, adjusted by `ParamDecayType`. -/
def ParseParamsLoop : Nat → List (Option Ty) → M (List (Option Ty))
  | 0, _ => fun _ => .fuelOut
  | fuel+1, acc => do
    let dsp ← ParseDeclSpec fuel
    let d ← ParseDeclarator fuel dsp
    match ParamDecayType dsp d with
    | none => pfatal "null parameter type"
    | some pt => do
      let acc2 := acc ++ [pt]
      let b ← TryConsumeToken .RightParen
      if b then pure acc2
      else do
        MustConsumeToken .Comma
        ParseParamsLoop fuel acc2
termination_by structural fuel _ => fuel

/-- `Parser::ParseArrayDimensions` (`src/src/parser.cc` lines 387-401),
entered after the `[` of a declarator suffix: skips `static`/`restrict`,
then tests for a `RightParen` (sic — not a `RightSquare`); on success the
array type has length 0, anything else is the unimplemented fatal
branch. -/
def ParseArrayDimensions : Nat → Option Ty → M (Option Ty)
  | 0, _ => fun _ => .fuelOut
  | fuel+1, t => do
    SkipStaticRestrict fuel
    let b ← TryConsumeToken .RightParen
    if b then do
      let arr ← ParseTypeSuffix fuel t
      pure (some (Ty.Array arr 0))
    else pfatal "unimplemented array dimension"
termination_by structural fuel _ => fuel

/-- `Parser::ParseExpr` (`src/src/parser.cc` lines 403-406). -/
def ParseExpr : Nat → M Expr
  | 0 => fun _ => .fuelOut
  | fuel+1 => do
    let e ← ParseAssignmentExpr fuel
    ParseRhsOfBinaryExpr fuel e .Assignment

/-- `Parser::ParseAssignmentExpr` (`src/src/parser.cc` lines 714-718). -/
def ParseAssignmentExpr : Nat → M Expr
  | 0 => fun _ => .fuelOut
  | fuel+1 => do
    let e ← ParseCastExpr fuel
    ParseRhsOfBinaryExpr fuel e .Assignment
termination_by structural fuel => fuel

/-- `Parser::ParseCastExpr` (`src/src/parser.cc` lines 720-774): literals,
address-of (which returns without the postfix loop), and identifiers
resolved against the scope stack; every other token kind is fatal. -/
def ParseCastExpr : Nat → M Expr
  | 0 => fun _ => .fuelOut
  | fuel+1 => do
    let t ← getCurTok
    match t.kind with
    | .NumericConstant => do
        doConsume
        ParsePostfixExpr fuel (Expr.IntergerLiteral (some GetIntType) (stoi t.text))
    | .StringLiteral => do
        let e := Expr.StringLiteral (some (StringLiteralType t.text)) t.text
        doConsume
        ParsePostfixExpr fuel e
    | .Char => do
        let e := Expr.CharacterLiteral (some GetCharType) t.text
        doConsume
        ParsePostfixExpr fuel e
    | .Ampersand => do
        doConsume
        let r ← ParseCastExpr fuel
        let rt ← ExprGetType r
        pure (Expr.UnaryExpr (some rt) .AddressOf r)
    | .Identifier => do
        doConsume
        let d? ← LookupM t.text
        match d? with
        | some d => ParsePostfixExpr fuel (Expr.DeclRefExpr d.GetType d)
        | none => pfatal "unimplemented unresolved identifier"
    | _ => pfatal "Unexpeted token kind"
termination_by structural fuel => fuel

/-- The expression-list loop of `Parser::ParseExprList` (`src/src/parser.cc`
lines 776-786). -/
def ParseExprListLoop : Nat → List Expr → M (List Expr)
  | 0, _ => fun _ => .fuelOut
  | fuel+1, acc => do
    let e ← ParseAssignmentExpr fuel
    let acc2 := acc ++ [e]
    let c ← getCurTok
    if c.kind == .Comma then do
      MustConsumeToken .Comma
      ParseExprListLoop fuel acc2
    else pure acc2
termination_by structural fuel _ => fuel

/-- `Parser::ParsePostfixExpr` (`src/src/parser.cc` lines 788-831): calls
(whose type is the callee function declaration's return type, reached
through two casts that abort on any other node), postfix `++`/`--`, and
the unimplemented member accesses. -/
def ParsePostfixExpr : Nat → Expr → M Expr
  | 0, _ => fun _ => .fuelOut
  | fuel+1, lhs => do
    let c ← getCurTok
    match c.kind with
    | .LeftParen => do
        doConsume
        let c2 ← getCurTok
        let args ← if c2.kind == .RightParen then pure ([] : List Expr)
          else ParseExprListLoop fuel []
        match lhs with
        | .DeclRefExpr _ (Decl.FunctionDecl nm fty ret prms bdy) => do
            let e := Expr.CallExpr ret (Expr.DeclRefExpr
              (Decl.GetType (Decl.FunctionDecl nm fty ret prms bdy))
              (Decl.FunctionDecl nm fty ret prms bdy)) args
            MustConsumeToken .RightParen
            ParsePostfixExpr fuel e
        | _ => pfatal "As DeclRefExpr or As FunctionDecl on a null pointer"
    | .PlusPlus => do
        doConsume
        let t ← ExprGetType lhs
        ParsePostfixExpr fuel (Expr.UnaryExpr (some t) .PostIncrement lhs)
    | .MinusMinus => do
        doConsume
        let t ← ExprGetType lhs
        ParsePostfixExpr fuel (Expr.UnaryExpr (some t) .PostDecrement lhs)
    | .Arrow => pfatal "unimplemented member access"
    | .Period => pfatal "unimplemented member access"
    | _ => pure lhs
termination_by structural fuel _ => fuel

/-- `Parser::ParseRhsOfBinaryExpr` (`src/src/parser.cc` lines 868-899): the
precedence-climbing loop, written with the loop as recursion; the head
precedence is recomputed from the current token, which is exactly the
value the source's `next_tok_prec` holds at the loop head. -/
def ParseRhsOfBinaryExpr : Nat → Expr → BinOpPreLevel → M Expr
  | 0, _, _ => fun _ => .fuelOut
  | fuel+1, lhs, minPrec => do
    let c ← getCurTok
    let ntp := GetBinOpPrecedence c.kind
    if ntp.toNat < minPrec.toNat then pure lhs
    else do
      let opTok := c
      doConsume
      let rhs ← ParseCastExpr fuel
      let thisPrec := ntp
      let c2 ← getCurTok
      let np := GetBinOpPrecedence c2.kind
      let isRightAssoc := thisPrec == BinOpPreLevel.Conditional ||
        thisPrec == BinOpPreLevel.Assignment
      let rhs2 ← if thisPrec.toNat < np.toNat || (thisPrec == np && isRightAssoc) then
          ParseRhsOfBinaryExpr fuel rhs thisPrec
        else pure rhs
      let lt ← ExprGetType lhs
      match ConvertOpToKind opTok.kind with
      | none => pfatal "unimplemented binary operator"
      | some op =>
          ParseRhsOfBinaryExpr fuel (Expr.BinaryExpr (some lt) op lhs rhs2) minPrec
termination_by structural fuel _ _ => fuel

/-- `Parser::ParseReturnStmt` (`src/src/parser.cc` lines 408-415). -/
def ParseReturnStmt : Nat → M Stmt
  | 0 => fun _ => .fuelOut
  | fuel+1 => do
    let b ← TryConsumeToken .Semi
    if b then pure (Stmt.ReturnStatement none)
    else do
      let e ← ParseExpr fuel
      SkipUntil fuel .Semi true
      pure (Stmt.ReturnStatement (some e))

/-- `Parser::ParseIfStmt` (`src/src/parser.cc` lines 417-432). -/
def ParseIfStmt : Nat → M Stmt
  | 0 => fun _ => .fuelOut
  | fuel+1 => do
    MustConsumeToken .LeftParen
    let cond ← ParseExpr fuel
    MustConsumeToken .RightParen
    let thenStmt ← ParseStatement fuel
    let b ← TryConsumeToken .Else
    let elseStmt ← if b then do
        let e ← ParseStatement fuel
        pure (some e)
      else pure (none : Option Stmt)
    pure (Stmt.IfStatement cond thenStmt elseStmt)
termination_by structural fuel => fuel

/-- `Parser::ParseDoStmt` (`src/src/parser.cc` lines 434-442). -/
def ParseDoStmt : Nat → M Stmt
  | 0 => fun _ => .fuelOut
  | fuel+1 => do
    let body ← ParseStatement fuel
    MustConsumeToken .While
    MustConsumeToken .LeftParen
    let cond ← ParseExpr fuel
    MustConsumeToken .RightParen
    MustConsumeToken .Semi
    pure (Stmt.DoStatement cond body)
termination_by structural fuel => fuel

/-- `Parser::ParseWhileStmt` (`src/src/parser.cc` lines 444-455). -/
def ParseWhileStmt : Nat → M Stmt
  | 0 => fun _ => .fuelOut
  | fuel+1 => do
    MustConsumeToken .LeftParen
    let cond ← ParseExpr fuel
    MustConsumeToken .RightParen
    let body ← ParseStatement fuel
    pure (Stmt.WhileStatement cond body)
termination_by structural fuel => fuel

/-- `Parser::ParseSwitchStmt` (`src/src/parser.cc` lines 456-464). -/
def ParseSwitchStmt : Nat → M Stmt
  | 0 => fun _ => .fuelOut
  | fuel+1 => do
    MustConsumeToken .LeftParen
    let cond ← ParseExpr fuel
    MustConsumeToken .RightParen
    MustConsumeToken .LeftBracket
    let body ← ParseCompoundStmt fuel
    pure (Stmt.SwitchStatement cond body)
termination_by structural fuel => fuel

/-- `Parser::ParseCaseStmt` (`src/src/parser.cc` lines 466-476). -/
def ParseCaseStmt : Nat → Bool → M Stmt
  | 0, _ => fun _ => .fuelOut
  | fuel+1, isDefault => do
    let value ← if isDefault then pure (none : Option String)
      else do
        let c ← getCurTok
        doConsume
        pure (some c.text)
    MustConsumeToken .Colon
    let stmt ← ParseStatement fuel
    pure (Stmt.CaseStatement stmt value isDefault)
termination_by structural fuel _ => fuel

/-- `Parser::ParseForStmt` (`src/src/parser.cc` lines 489-501). -/
def ParseForStmt : Nat → M Stmt
  | 0 => fun _ => .fuelOut
  | fuel+1 => do
    MustConsumeToken .LeftParen
    let init ← ParseStatement fuel
    let cond ← ParseStatement fuel
    let inc ← ParseExpr fuel
    MustConsumeToken .RightParen
    MustConsumeToken .LeftBracket
    let body ← ParseCompoundStmt fuel
    pure (Stmt.ForStatement init cond inc body)
termination_by structural fuel => fuel

/-- `Parser::ParseExprStmt` (`src/src/parser.cc` lines 503-512). -/
def ParseExprStmt : Nat → M Stmt
  | 0 => fun _ => .fuelOut
  | fuel+1 => do
    let b ← TryConsumeToken .Semi
    if b then pfatal "unimplemented empty statement"
    else do
      let e ← ParseExpr fuel
      MustConsumeToken .Semi
      pure (Stmt.ExprStatement e)

/-- `Parser::ParseStatement` (`src/src/parser.cc` lines 514-563), in source
dispatch order. -/
def ParseStatement : Nat → M Stmt
  | 0 => fun _ => .fuelOut
  | fuel+1 => do
    let b ← TryConsumeToken .Return
    if b then ParseReturnStmt fuel else do
    let b ← TryConsumeToken .Break
    if b then do
      MustConsumeToken .Semi
      pure Stmt.BreakStatement
    else do
    let b ← TryConsumeToken .Continue
    if b then do
      MustConsumeToken .Semi
      pure Stmt.ContinueStatement
    else do
    let b ← TryConsumeToken .If
    if b then ParseIfStmt fuel else do
    let b ← TryConsumeToken .While
    if b then ParseWhileStmt fuel else do
    let b ← TryConsumeToken .Switch
    if b then ParseSwitchStmt fuel else do
    let b ← TryConsumeToken .Case
    if b then ParseCaseStmt fuel false else do
    let b ← TryConsumeToken .Default
    if b then ParseCaseStmt fuel true else do
    let b ← TryConsumeToken .Do
    if b then ParseDoStmt fuel else do
    let b ← TryConsumeToken .Goto
    if b then pfatal "unimplemented goto" else do
    let b ← TryConsumeToken .For
    if b then ParseForStmt fuel else do
    let b ← TryConsumeToken .LeftBracket
    if b then ParseCompoundStmt fuel
    else ParseExprStmt fuel
termination_by structural fuel => fuel

/-- The item loop of `Parser::ParseCompoundStmt` (`src/src/parser.cc` lines
583-606): a type-token not followed by a colon opens the declaration
path (typedefs continue, function declarators parse a nested function,
otherwise a variable declaration); anything else is a statement.  The
closing brace is consumed on exit.  (`GetCurFunc()->AddLocals` only
feeds the emitter's locals list and is not modelled.) -/
def ParseCompoundItems : Nat → List Stmt → M (List Stmt)
  | 0, _ => fun _ => .fuelOut
  | fuel+1, acc => do
    let c ← getCurTok
    if c.kind == .RightBracket then do
      doConsume
      pure acc
    else do
      let isT ← IsTypeM c
      let nxt ← peekTok
      if isT && !(nxt.kind == .Colon) then do
        let dsp ← ParseDeclSpec fuel
        if dsp.IsTypedef then do
          ParseTypedef fuel dsp
          ParseCompoundItems fuel acc
        else do
          let d ← ParseDeclarator fuel dsp
          let k ← GetTypeKindM d
          if k == .Func then do
            let f ← ParseFunction fuel d
            ParseCompoundItems fuel (acc ++ [Stmt.DeclStatement [f]])
          else do
            let decls ← ParseDeclaration fuel d
            ParseCompoundItems fuel (acc ++ [Stmt.DeclStatement decls])
      else do
        let st ← ParseStatement fuel
        ParseCompoundItems fuel (acc ++ [st])
termination_by structural fuel _ => fuel

/-- `Parser::ParseCompoundStmt` (`src/src/parser.cc` lines 577-608): a new
scope around the item loop. -/
def ParseCompoundStmt : Nat → M Stmt
  | 0 => fun _ => .fuelOut
  | fuel+1 => do
    EnterScope
    let stmts ← ParseCompoundItems fuel []
    ExitScope
    pure (Stmt.CompoundStatement stmts)
termination_by structural fuel => fuel

/-- `Parser::ParseFunction` (`src/src/parser.cc` lines 648-679): name and
redefinition checks, the function declaration (installed in the
enclosing scope per spec section 4.2.7 — the installing code is not
under `src/`), a fresh scope holding the created parameters, then a brace
body, a bodyless `;`, or a fatal error. -/
def ParseFunction : Nat → Declarator → M Decl
  | 0, _ => fun _ => .fuelOut
  | fuel+1, d => do
    if d.name == "" then pfatal "function name is missing"
    else do
      let prev ← LookupM d.name
      match prev with
      | some _ => pfatal "function redefinition"
      | none =>
        match d.ty with
        | some (Ty.Func ret ps) => do
          PushDeclM (Decl.FunctionDecl d.name (Ty.Func ret ps) ret [] none)
          EnterScope
          let params := CreateParams ps
          PushDeclsM params
          let b ← TryConsumeToken .LeftBracket
          let body ← if b then do
              let st ← ParseCompoundStmt fuel
              pure (some st)
            else do
              let c ← getCurTok
              if c.kind == .Semi then pure (none : Option Stmt)
              else pfatal "error when parsing function body"
          ExitScope
          pure (Decl.FunctionDecl d.name (Ty.Func ret ps) ret params body)
        | _ => pfatal "AsType FunctionType on a non-function type"
termination_by structural fuel _ => fuel

/-- The optional-declarator loop of `Parser::ParseDeclaration`
(`src/src/parser.cc` lines 690-701): while the current token is neither
`;` nor `=`, demand a comma and collect further named variables of the
same declarator type. -/
def ParseDeclarationNames : Nat → Declarator → List Decl → M (List Decl)
  | 0, _, _ => fun _ => .fuelOut
  | fuel+1, d, acc => do
    let c ← getCurTok
    if c.kind == .Semi || c.kind == .Equal then pure acc
    else do
      MustConsumeToken .Comma
      let c2 ← getCurTok
      if c2.kind == .Identifier then do
        let acc2 := acc ++ [Decl.VarDecl c2.text d.ty none]
        MustConsumeToken .Identifier
        ParseDeclarationNames fuel d acc2
      else ParseDeclarationNames fuel d acc
termination_by structural fuel _ _ => fuel

/-- `Parser::ParseDeclaration` (`src/src/parser.cc` lines 685-712): the lead
variable, the optional further names, then — if a single `=` follows —
one initialiser assigned to every collected variable, and the closing
`;`.  The finished variables are installed in the current scope (spec
section 4.4; the installing code is not under `src/`). -/
def ParseDeclaration : Nat → Declarator → M (List Decl)
  | 0, _ => fun _ => .fuelOut
  | fuel+1, d => do
    let v0 := Decl.VarDecl d.name d.ty none
    let vars ← ParseDeclarationNames fuel d [v0]
    let b ← TryConsumeToken .Equal
    let vars2 ← if b then do
        let init ← ParseAssignmentExpr fuel
        pure (vars.map fun v =>
          match v with
          | Decl.VarDecl n t _ => Decl.VarDecl n t (some init)
          | other => other)
      else pure vars
    PushDeclsM vars2
    MustConsumeToken .Semi
    pure vars2

/-- `Parser::ParseFunctionOrVar` (`src/src/parser.cc` lines 902-918). -/
def ParseFunctionOrVar : Nat → DeclSpec → M (List Decl)
  | 0, _ => fun _ => .fuelOut
  | fuel+1, dsp => do
    let b ← TryConsumeToken .Semi
    if b then pure ([] : List Decl)
    else do
      let d ← ParseDeclarator fuel dsp
      let k ← GetTypeKindM d
      if k == .Func then do
        let f ← ParseFunction fuel d
        pure [f]
      else ParseDeclaration fuel d

/-- The identifier loop of `Parser::ParseTypedef` (`src/src/parser.cc` lines
921-934): until the `;`, skip a comma if present, then assert an
identifier and bind it to the specifier's type in the current scope. -/
def ParseTypedefLoop : Nat → DeclSpec → M Unit
  | 0, _ => fun _ => .fuelOut
  | fuel+1, dsp => do
    let c ← getCurTok
    if c.kind == .Semi then pure ()
    else do
      let c2 ← if c.kind == .Comma then do
          doConsume
          getCurTok
        else pure c
      if c2.kind == .Identifier then do
        PushTypeM c2.text dsp.ty
        doConsume
        ParseTypedefLoop fuel dsp
      else pfatal "assert failed: not an identifier in parsing typedef"
termination_by structural fuel _ => fuel

/-- `Parser::ParseTypedef`: the identifier loop followed by the mandatory
`;`. -/
def ParseTypedef : Nat → DeclSpec → M Unit
  | 0, _ => fun _ => .fuelOut
  | fuel+1, dsp => do
    ParseTypedefLoop fuel dsp
    MustConsumeToken .Semi

/-- The top-level item loop of `Parser::ParseTranslateUnit`
(`src/src/parser.cc` lines 940-949).  Note that after `ParseTypedef` the
source falls through to `ParseFunctionOrVar` in the same iteration —
there is no `continue`. -/
def ParseTUItems : Nat → List Decl → M (List Decl)
  | 0, _ => fun _ => .fuelOut
  | fuel+1, acc => do
    let c ← getCurTok
    if c.kind == .Eof then pure acc
    else do
      let dsp ← ParseDeclSpec fuel
      if dsp.IsTypedef then ParseTypedef fuel dsp
      let decls ← ParseFunctionOrVar fuel dsp
      ParseTUItems fuel (acc ++ decls)
termination_by structural fuel _ => fuel

/-- `Parser::ParseTranslateUnit` (`src/src/parser.cc` lines 936-952): the
file scope around the top-level item loop. -/
def ParseTranslateUnit : Nat → M (List Decl)
  | 0 => fun _ => .fuelOut
  | fuel+1 => do
    EnterScope
    let decls ← ParseTUItems fuel []
    ExitScope
    pure decls

end

mutual

/-- No expression node inside this expression has a null `Type` field
(sub-expressions only: per spec section 3 the AST is a tree, and the
declaration behind a `DeclRefExpr` is a cross-reference, not a child). -/
def Expr.noNullTy : Expr → Bool
  | .IntergerLiteral t _ => t.isSome
  | .StringLiteral t _ => t.isSome
  | .CharacterLiteral t _ => t.isSome
  | .DeclRefExpr t _ => t.isSome
  | .UnaryExpr t _ v => t.isSome && v.noNullTy
  | .BinaryExpr t _ l r => t.isSome && l.noNullTy && r.noNullTy
  | .CallExpr t c args => t.isSome && c.noNullTy && exprsNoNullTy args

/-- `Expr.noNullTy` over a list. -/
def exprsNoNullTy : List Expr → Bool
  | [] => true
  | e :: r => e.noNullTy && exprsNoNullTy r

/-- Every expression node occurring inside this statement has a non-null
`Type` field. -/
def Stmt.noNullTy : Stmt → Bool
  | .ReturnStatement v =>
    match v with
    | some e => e.noNullTy
    | none => true
  | .CompoundStatement l => stmtsNoNullTy l
  | .DeclStatement ds => declsNoNullTy ds
  | .IfStatement c t e =>
    c.noNullTy && t.noNullTy &&
      (match e with
       | some st => st.noNullTy
       | none => true)
  | .WhileStatement c b => c.noNullTy && b.noNullTy
  | .DoStatement c b => c.noNullTy && b.noNullTy
  | .ForStatement i c inc b => i.noNullTy && c.noNullTy && inc.noNullTy && b.noNullTy
  | .SwitchStatement c b => c.noNullTy && b.noNullTy
  | .CaseStatement st _ _ => st.noNullTy
  | .BreakStatement => true
  | .ContinueStatement => true
  | .ExprStatement e => e.noNullTy

/-- `Stmt.noNullTy` over a list. -/
def stmtsNoNullTy : List Stmt → Bool
  | [] => true
  | s :: r => s.noNullTy && stmtsNoNullTy r

/-- Every expression node occurring inside this declaration (initialisers,
parameter initialisers, the body) has a non-null `Type` field. -/
def Decl.noNullTy : Decl → Bool
  | .VarDecl _ _ init =>
    match init with
    | some e => e.noNullTy
    | none => true
  | .FunctionDecl _ _ _ params body =>
    declsNoNullTy params &&
      (match body with
       | some st => st.noNullTy
       | none => true)

/-- `Decl.noNullTy` over a list. -/
def declsNoNullTy : List Decl → Bool
  | [] => true
  | d :: r => d.noNullTy && declsNoNullTy r

end

/-- A successfully returned translation unit containing at least one
expression node whose `Type` field is null. -/
def ResultHasNullTypedExpr (r : PRes (List Decl)) : Bool :=
  match r with
  | .ok ds _ => !(declsNoNullTy ds)
  | _ => false

/-- A scope-stack declaration entry through which the expression parser can
only mint non-null types: the declaration's own type is non-null and — for
a function, whose return type becomes the type of a call — the return
type is non-null as well. -/
def Decl.scopeTyped : Decl → Bool
  | .VarDecl _ t _ => t.isSome
  | .FunctionDecl _ _ ret _ _ => ret.isSome

/-- All declaration bindings of all frames are `scopeTyped`. -/
def scopesTyped (l : List Scope) : Bool :=
  l.all fun f => f.decls.all fun p => p.2.scopeTyped

/-- A keyword or punctuation token (the lexeme is irrelevant). -/
def tok (k : TokenKind) : Token := { kind := k, text := "" }

/-- A token carrying its lexeme. -/
def tokT (k : TokenKind) (s : String) : Token := { kind := k, text := s }

/-- The parser state at the start of a compile: the token stream, no scope
yet (`ParseTranslateUnit` pushes the file scope). -/
def initState (l : List Token) : PState := { toks := l, scopes := [] }

/-- Tokens of `int main(void) { return 0; }`. -/
def toksIntMain : List Token :=
  [tok .Int, tokT .Identifier "main", tok .LeftParen, tok .Void, tok .RightParen,
   tok .LeftBracket, tok .Return, tokT .NumericConstant "0", tok .Semi,
   tok .RightBracket]

/-- Tokens of `typedef int T; T x;`. -/
def toksTypedefTx : List Token :=
  [tok .Typedef, tok .Int, tokT .Identifier "T", tok .Semi,
   tokT .Identifier "T", tokT .Identifier "x", tok .Semi]

/-- Tokens of `int x = 1, y, z = 3;`. -/
def toksMultiInit : List Token :=
  [tok .Int, tokT .Identifier "x", tok .Equal, tokT .NumericConstant "1",
   tok .Comma, tokT .Identifier "y", tok .Comma, tokT .Identifier "z",
   tok .Equal, tokT .NumericConstant "3", tok .Semi]

/-- Tokens of `int x, y, z = 3;`. -/
def toksTailInit : List Token :=
  [tok .Int, tokT .Identifier "x", tok .Comma, tokT .Identifier "y",
   tok .Comma, tokT .Identifier "z", tok .Equal, tokT .NumericConstant "3",
   tok .Semi]

/-- Tokens of `int a[];`. -/
def toksEmptyBrackets : List Token :=
  [tok .Int, tokT .Identifier "a", tok .LeftSquare, tok .RightSquare, tok .Semi]

/-- Tokens of the ill-bracketed `int a[);`. -/
def toksBracketParen : List Token :=
  [tok .Int, tokT .Identifier "a", tok .LeftSquare, tok .RightParen, tok .Semi]

/-- Tokens of `int f(int a[));` — an array-typed parameter (the array
dimension must be closed by `)` to get past `ParseArrayDimensions`). -/
def toksArrayParam : List Token :=
  [tok .Int, tokT .Identifier "f", tok .LeftParen, tok .Int,
   tokT .Identifier "a", tok .LeftSquare, tok .RightParen, tok .RightParen,
   tok .Semi]

/-- Tokens of `int g(int h(void));` — a function-typed parameter. -/
def toksFuncParam : List Token :=
  [tok .Int, tokT .Identifier "g", tok .LeftParen, tok .Int,
   tokT .Identifier "h", tok .LeftParen, tok .Void, tok .RightParen,
   tok .RightParen, tok .Semi]

/-- Tokens of `f(); int main(void) { return f(); }`. -/
def toksNullCall : List Token :=
  [tokT .Identifier "f", tok .LeftParen, tok .RightParen, tok .Semi,
   tok .Int, tokT .Identifier "main", tok .LeftParen, tok .Void,
   tok .RightParen, tok .LeftBracket, tok .Return, tokT .Identifier "f",
   tok .LeftParen, tok .RightParen, tok .Semi, tok .RightBracket]

/-- Tokens of `typedef int static x;`. -/
def toksTypedefStatic : List Token :=
  [tok .Typedef, tok .Int, tok .Static, tokT .Identifier "x", tok .Semi]

/-- Tokens of `int main(void) { return 1, 2; }`. -/
def toksReturnComma : List Token :=
  [tok .Int, tokT .Identifier "main", tok .LeftParen, tok .Void,
   tok .RightParen, tok .LeftBracket, tok .Return, tokT .NumericConstant "1",
   tok .Comma, tokT .NumericConstant "2", tok .Semi, tok .RightBracket]

/-- Tokens of the expression `1 % 2`. -/
def toksOnePercentTwo : List Token :=
  [tokT .NumericConstant "1", tok .Percent, tokT .NumericConstant "2"]

/-- The signed 32-bit integer type, as synthesised from the `int`
specifier. -/
def intTy : Ty := .Int false

/-- The fourteen operator tokens `ConvertOpToKind` accepts. -/
def convertibleOpTokens : List TokenKind :=
  [.Plus, .PlusEqual, .Minus, .MinusEqual, .Star, .StarEqual, .Slash,
   .SlashEqual, .Greater, .GreaterEqual, .Less, .LessEqual, .Equal,
   .EqualEqual]

mutual

/-- Well-formed expression: every node carries a non-null `Type` field and
every declaration referenced by a `DeclRefExpr` is `scopeTyped` (so the
node types the parser mints from it are non-null as well). -/
def Expr.wf : Expr → Bool
  | .IntergerLiteral t _ => t.isSome
  | .StringLiteral t _ => t.isSome
  | .CharacterLiteral t _ => t.isSome
  | .DeclRefExpr t d => t.isSome && d.scopeTyped
  | .UnaryExpr t _ v => t.isSome && v.wf
  | .BinaryExpr t _ l r => t.isSome && l.wf && r.wf
  | .CallExpr t c args => t.isSome && c.wf && exprsWf args

/-- `Expr.wf` over a list. -/
def exprsWf : List Expr → Bool
  | [] => true
  | e :: r => e.wf && exprsWf r

end

/-- A file scope binding `a`, `b` and `c` as `int` variables (witness
input for the precedence claims). -/
def cScope : List Scope :=
  [{ decls := [("a", Decl.VarDecl "a" (some intTy) none),
               ("b", Decl.VarDecl "b" (some intTy) none),
               ("c", Decl.VarDecl "c" (some intTy) none)], types := [] }]

/-- The `DeclSpec` that `int` alone synthesises (witness input for the
declaration-specifier claims). -/
def dsInt : DeclSpec :=
  { storage := .Unspecified, funcSpec := .Unspecified, atomicQual := false,
    tsk := .Int, width := .Unspecified, sign := .Unspecified,
    ty := some intTy }

theorem bind_apply {α β : Type} (m : M α) (f : α → M β) (s : PState) :
    (m >>= f) s =
      match m s with
      | .ok a s2 => f a s2
      | .err e => PRes.err e
      | .fuelOut => PRes.fuelOut := rfl

theorem pure_apply {α : Type} (a : α) (s : PState) : (pure a : M α) s = .ok a s := rfl

theorem ok_of_bind {α β : Type} {m : M α} {f : α → M β} {s : PState} {b : β}
    {s2 : PState} (h : (m >>= f) s = .ok b s2) :
    ∃ a s1, m s = .ok a s1 ∧ f a s1 = .ok b s2 := by
  cases hm : m s with
  | ok a s1 => exact ⟨a, s1, rfl, by rw [bind_apply, hm] at h; exact h⟩
  | err e => rw [bind_apply, hm] at h; cases h
  | fuelOut => rw [bind_apply, hm] at h; cases h

theorem iteM_apply {α : Type} {c : Prop} [inst : Decidable c] (A B : M α) (s : PState) :
    (if c then A else B) s = if c then A s else B s := by
  split <;> rfl

theorem DeclSpecStorageClass_inv (ds : DeclSpec) (s : PState) (a : DeclSpec)
    (s1 : PState) (h0 : ¬(ds.storage = .Typedef ∧ ds.funcSpec = .Inline))
    (h : DeclSpecStorageClass ds s = .ok a s1) :
    ¬(a.storage = .Typedef ∧ a.funcSpec = .Inline) := by
  unfold DeclSpecStorageClass at h
  simp only [bind_apply, pure_apply, iteM_apply, getCurTok, doConsume] at h
  split at h
  · split at h
    · exact absurd h (by simp [pfatal])
    · rename_i hds2 hchk
      cases h
      intro hP
      apply hchk
      simp only [DeclSpec.IsTypedef, DeclSpec.IsInline, DeclSpec.IsStatic,
        DeclSpec.IsExtern, DeclSpec.IsThreadLocal, hP.1, hP.2]
      simp
  · cases h
    exact h0

theorem DeclSpecBuiltinType_pres (ds : DeclSpec) (s : PState) (a : DeclSpec)
    (s1 : PState) (h : DeclSpecBuiltinType ds s = .ok a s1) :
    a.storage = ds.storage ∧ a.funcSpec = ds.funcSpec := by
  unfold DeclSpecBuiltinType at h
  revert h
  cases hk : (curTok s).kind <;> intro h <;>
    simp only [M.pure, bind_apply, pure_apply, LookupTypeM, iteM_apply, pfatal,
      getCurTok, hk] at h <;>
    first
      | (cases h; exact ⟨rfl, rfl⟩)
      | (split at h <;> (cases h; exact ⟨rfl, rfl⟩))
      | (exact absurd h (by simp))

theorem DeclSpec.storage_SynthesizeType (ds ds2 : DeclSpec)
    (h : ds.SynthesizeType = some ds2) :
    ds2.storage = ds.storage ∧ ds2.funcSpec = ds.funcSpec := by
  unfold DeclSpec.SynthesizeType at h
  split at h
  · cases h; exact ⟨rfl, rfl⟩
  · split at h
    · cases h; exact ⟨rfl, rfl⟩
    · cases h

theorem ParseDeclSpecAtomic_inv (fuel : Nat) (ds : DeclSpec) (s : PState)
    (a : DeclSpec) (s1 : PState)
    (h0 : ¬(ds.storage = .Typedef ∧ ds.funcSpec = .Inline))
    (h : ParseDeclSpecAtomic fuel ds s = .ok a s1) :
    ¬(a.storage = .Typedef ∧ a.funcSpec = .Inline) := by
  cases fuel with
  | zero => exact absurd h (by simp [ParseDeclSpecAtomic])
  | succ n =>
    rw [ParseDeclSpecAtomic] at h
    simp only [bind_apply, pure_apply, iteM_apply, getCurTok, doConsume] at h
    split at h
    · split at h
      · cases h
        intro hP
        exact h0 ⟨hP.1, hP.2⟩
      · cases h
      · cases h
    · cases h
      exact h0

theorem ParseDeclSpecTail_inv (n : Nat)
    (ihloop : ∀ (ds0 : DeclSpec) (s : PState) (ds : DeclSpec) (s2 : PState),
      ¬(ds0.storage = .Typedef ∧ ds0.funcSpec = .Inline) →
      ParseDeclSpecLoop n ds0 s = .ok ds s2 →
      ¬(ds.storage = .Typedef ∧ ds.funcSpec = .Inline)) :
    ∀ (fuel : Nat) (ds0 : DeclSpec) (s : PState) (ds : DeclSpec) (s2 : PState),
      fuel = n + 1 →
      ¬(ds0.storage = .Typedef ∧ ds0.funcSpec = .Inline) →
      ParseDeclSpecTail fuel ds0 s = .ok ds s2 →
      ¬(ds.storage = .Typedef ∧ ds.funcSpec = .Inline) := by
  intro fuel ds0 s ds s2 hf h0 h
  subst hf
  rw [ParseDeclSpecTail] at h
  obtain ⟨c1, sc1, hC1, h⟩ := ok_of_bind h
  injection hC1 with hC1a hC1b
  subst hC1a hC1b
  rw [iteM_apply] at h
  split at h
  · exact absurd h (by simp [bind_apply, pfatal])
  · obtain ⟨u, su, hU, h⟩ := ok_of_bind h
    injection hU with hUa hUb
    subst hUb
    obtain ⟨c2, sc2, hC2, h⟩ := ok_of_bind h
    injection hC2 with hC2a hC2b
    subst hC2a hC2b
    rw [iteM_apply] at h
    split at h
    · obtain ⟨u2, su2, hU2, h⟩ := ok_of_bind h
      injection hU2 with hU2a hU2b
      subst hU2b
      obtain ⟨rt, srt, hRt, h⟩ := ok_of_bind h
      cases h
      intro hP
      exact h0 ⟨hP.1, hP.2⟩
    · rw [iteM_apply] at h
      split at h
      · exact absurd h (by simp [bind_apply, pfatal])
      · obtain ⟨u3, su3, hU3, h⟩ := ok_of_bind h
        injection hU3 with hU3a hU3b
        subst hU3b
        obtain ⟨ds1, s1, hBt, h⟩ := ok_of_bind h
        have hpres := DeclSpecBuiltinType_pres _ _ _ _ hBt
        obtain ⟨u4, su4, hU4, h⟩ := ok_of_bind h
        injection hU4 with hU4a hU4b
        subst hU4b
        cases hsyn : ds1.SynthesizeType with
        | some ds2 =>
          rw [hsyn] at h
          have hpres2 := DeclSpec.storage_SynthesizeType _ _ hsyn
          refine ihloop ds2 _ ds s2 ?_ h
          intro hP
          exact h0 ⟨by rw [← hpres.1, ← hpres2.1]; exact hP.1,
            by rw [← hpres.2, ← hpres2.2]; exact hP.2⟩
        | none =>
          rw [hsyn] at h
          exact absurd h (by simp [pfatal])

theorem ParseDeclSpecLoop_typedef_inline :
    ∀ (fuel : Nat) (ds0 : DeclSpec) (s : PState) (ds : DeclSpec) (s2 : PState),
      ¬(ds0.storage = .Typedef ∧ ds0.funcSpec = .Inline) →
      ParseDeclSpecLoop fuel ds0 s = .ok ds s2 →
      ¬(ds.storage = .Typedef ∧ ds.funcSpec = .Inline) := by
  intro fuel
  induction fuel using Nat.strong_induction_on with
  | _ fuel ih =>
    cases fuel with
    | zero => intro ds0 s ds s2 h0 h; exact absurd h (by simp [ParseDeclSpecLoop])
    | succ n =>
      intro ds0 s ds s2 h0 h
      rw [ParseDeclSpecLoop] at h
      obtain ⟨t, st, hT, h⟩ := ok_of_bind h
      injection hT with hTa hTb
      subst hTa hTb
      obtain ⟨bT, sbt, hB, h⟩ := ok_of_bind h
      injection hB with hBa hBb
      subst hBa hBb
      rw [iteM_apply] at h
      split at h
      · cases h
        exact h0
      · obtain ⟨ds1, s1, hSt, h⟩ := ok_of_bind h
        have hP1 := DeclSpecStorageClass_inv _ _ _ _ h0 hSt
        obtain ⟨c1, sc1, hC1, h⟩ := ok_of_bind h
        injection hC1 with hC1a hC1b
        subst hC1a hC1b
        rw [iteM_apply] at h
        split at h <;>
          · obtain ⟨u1, su1, hU1, h⟩ := ok_of_bind h
            injection hU1 with hU1a hU1b
            subst hU1b
            obtain ⟨ds2, s2a, hAt, h⟩ := ok_of_bind h
            have hP2 := ParseDeclSpecAtomic_inv _ _ _ _ _ hP1 hAt
            cases n with
            | zero => exact absurd h (by simp [ParseDeclSpecTail])
            | succ m =>
              exact ParseDeclSpecTail_inv m
                (fun a b c d he hl => ih m (by omega) a b c d he hl)
                _ _ _ _ _ rfl hP2 h

mutual

theorem Expr.wf_noNull : ∀ (e : Expr), e.wf = true → e.noNullTy = true
  | .IntergerLiteral t v => by simp [Expr.wf, Expr.noNullTy]
  | .StringLiteral t v => by simp [Expr.wf, Expr.noNullTy]
  | .CharacterLiteral t v => by simp [Expr.wf, Expr.noNullTy]
  | .DeclRefExpr t d => by simp [Expr.wf, Expr.noNullTy]; intro h _; exact h
  | .UnaryExpr t op v => by
      simp [Expr.wf, Expr.noNullTy]
      intro h1 h2
      exact ⟨h1, Expr.wf_noNull v h2⟩
  | .BinaryExpr t op l r => by
      simp [Expr.wf, Expr.noNullTy]
      intro h1 h2 h3
      exact ⟨⟨h1, Expr.wf_noNull l h2⟩, Expr.wf_noNull r h3⟩
  | .CallExpr t c args => by
      simp [Expr.wf, Expr.noNullTy]
      intro h1 h2 h3
      exact ⟨⟨h1, Expr.wf_noNull c h2⟩, exprsWf_noNull args h3⟩

theorem exprsWf_noNull : ∀ (es : List Expr), exprsWf es = true → exprsNoNullTy es = true
  | [] => by simp [exprsWf, exprsNoNullTy]
  | e :: r => by
      simp [exprsWf, exprsNoNullTy]
      intro h1 h2
      exact ⟨Expr.wf_noNull e h1, exprsWf_noNull r h2⟩

end

theorem assocFind_scopeTyped (l : List (String × Decl)) (n : String) (d : Decl)
    (hl : l.all (fun p => p.2.scopeTyped) = true) (h : assocFind l n = some d) :
    d.scopeTyped = true := by
  induction l with
  | nil => cases h
  | cons p rest ih =>
    simp only [List.all_cons, Bool.and_eq_true] at hl
    unfold assocFind at h
    split at h
    · cases h; exact hl.1
    · exact ih hl.2 h

theorem lookupDecl_scopeTyped (sc : List Scope) (n : String) (d : Decl)
    (hsc : scopesTyped sc = true) (h : lookupDecl sc n = some d) :
    d.scopeTyped = true := by
  induction sc with
  | nil => cases h
  | cons f rest ih =>
    simp only [scopesTyped, List.all_cons, Bool.and_eq_true] at hsc
    unfold lookupDecl at h
    split at h
    · rename_i d2 hfind
      cases h
      exact assocFind_scopeTyped _ _ _ hsc.1 hfind
    · exact ih (by simp [scopesTyped, hsc.2]) h

theorem MustConsume_ok {k : TokenKind} {s s2 : PState} {u : Unit}
    (h : MustConsumeToken k s = .ok u s2) : s2 = consume1 s := by
  unfold MustConsumeToken at h
  split at h
  · cases h; rfl
  · cases h

theorem ExprGetType_ok {e : Expr} {s s2 : PState} {t : Ty}
    (h : ExprGetType e s = .ok t s2) : e.tyField = some t ∧ s2 = s := by
  unfold ExprGetType at h
  split at h
  · rename_i t2 ht2
    cases h
    exact ⟨ht2, rfl⟩
  · cases h

theorem exprsWf_append (a : List Expr) (e : Expr) :
    exprsWf (a ++ [e]) = (exprsWf a && e.wf) := by
  induction a with
  | nil => simp [exprsWf]
  | cons x r ih => simp [exprsWf, ih, Bool.and_assoc]

theorem Decl.scopeTyped_isSome (d : Decl) (h : d.scopeTyped = true) :
    d.GetType.isSome = true := by
  cases d with
  | VarDecl n t i => simpa [Decl.GetType, Decl.scopeTyped] using h
  | FunctionDecl n t r p b => simp [Decl.GetType]

theorem ExprFamilyWf :
    ∀ (fuel : Nat),
      (∀ (s : PState) (e : Expr) (s2 : PState),
        scopesTyped s.scopes = true → ParseCastExpr fuel s = .ok e s2 →
        e.wf = true ∧ s2.scopes = s.scopes) ∧
      (∀ (lhs : Expr) (s : PState) (e : Expr) (s2 : PState),
        scopesTyped s.scopes = true → lhs.wf = true →
        ParsePostfixExpr fuel lhs s = .ok e s2 →
        e.wf = true ∧ s2.scopes = s.scopes) ∧
      (∀ (acc : List Expr) (s : PState) (es : List Expr) (s2 : PState),
        scopesTyped s.scopes = true → exprsWf acc = true →
        ParseExprListLoop fuel acc s = .ok es s2 →
        exprsWf es = true ∧ s2.scopes = s.scopes) ∧
      (∀ (lhs : Expr) (mp : BinOpPreLevel) (s : PState) (e : Expr) (s2 : PState),
        scopesTyped s.scopes = true → lhs.wf = true →
        ParseRhsOfBinaryExpr fuel lhs mp s = .ok e s2 →
        e.wf = true ∧ s2.scopes = s.scopes) ∧
      (∀ (s : PState) (e : Expr) (s2 : PState),
        scopesTyped s.scopes = true → ParseAssignmentExpr fuel s = .ok e s2 →
        e.wf = true ∧ s2.scopes = s.scopes) ∧
      (∀ (s : PState) (e : Expr) (s2 : PState),
        scopesTyped s.scopes = true → ParseExpr fuel s = .ok e s2 →
        e.wf = true ∧ s2.scopes = s.scopes) := by
  intro fuel
  induction fuel using Nat.strong_induction_on with
  | _ fuel ih =>
    cases fuel with
    | zero =>
      refine ⟨?_, ?_, ?_, ?_, ?_, ?_⟩
      · intro s e s2 _ h
        exact absurd h (by simp [ParseCastExpr])
      · intro lhs s e s2 _ _ h
        exact absurd h (by simp [ParsePostfixExpr])
      · intro acc s es s2 _ _ h
        exact absurd h (by simp [ParseExprListLoop])
      · intro lhs mp s e s2 _ _ h
        exact absurd h (by simp [ParseRhsOfBinaryExpr])
      · intro s e s2 _ h
        exact absurd h (by simp [ParseAssignmentExpr])
      · intro s e s2 _ h
        exact absurd h (by simp [ParseExpr])
    | succ n =>
      have ihc := (ih n (by omega)).1
      have ihp := (ih n (by omega)).2.1
      have ihl := (ih n (by omega)).2.2.1
      have ihr := (ih n (by omega)).2.2.2.1
      have iha := (ih n (by omega)).2.2.2.2.1
      refine ⟨?_, ?_, ?_, ?_, ?_, ?_⟩
      · intro s e s2 hsc h
        simp only [ParseCastExpr] at h
        obtain ⟨t, st, hT, h⟩ := ok_of_bind h
        simp only [getCurTok] at hT
        injection hT with h1 h2
        subst h1; subst h2
        revert h
        cases hk : (curTok s).kind <;> intro h
        case NumericConstant =>
          obtain ⟨u, su, hu, h⟩ := ok_of_bind h
          simp only [doConsume] at hu
          injection hu with _ h2; subst h2
          have hr := ihp _ (consume1 s) e s2 hsc (by simp [Expr.wf]) h
          exact ⟨hr.1, hr.2⟩
        case StringLiteral =>
          obtain ⟨u, su, hu, h⟩ := ok_of_bind h
          simp only [doConsume] at hu
          injection hu with _ h2; subst h2
          have hr := ihp _ (consume1 s) e s2 hsc (by simp [Expr.wf]) h
          exact ⟨hr.1, hr.2⟩
        case Char =>
          obtain ⟨u, su, hu, h⟩ := ok_of_bind h
          simp only [doConsume] at hu
          injection hu with _ h2; subst h2
          have hr := ihp _ (consume1 s) e s2 hsc (by simp [Expr.wf]) h
          exact ⟨hr.1, hr.2⟩
        case Ampersand =>
          obtain ⟨u, su, hu, h⟩ := ok_of_bind h
          simp only [doConsume] at hu
          injection hu with _ h2; subst h2
          obtain ⟨r, s1, hr, hA⟩ := ok_of_bind h
          have h1 := ihc (consume1 s) r s1 hsc hr
          obtain ⟨rt, s1b, hrt, hB⟩ := ok_of_bind hA
          obtain ⟨hg1, hg2⟩ := ExprGetType_ok hrt
          subst hg2
          injection hB with h3 h4
          subst h3; subst h4
          exact ⟨by simp [Expr.wf, h1.1], h1.2⟩
        case Identifier =>
          obtain ⟨u, su, hu, h⟩ := ok_of_bind h
          simp only [doConsume] at hu
          injection hu with _ h2; subst h2
          obtain ⟨dq, s1, hl, h⟩ := ok_of_bind h
          simp only [LookupM] at hl
          injection hl with h3 h4
          subst h3; subst h4
          revert h
          cases hd : lookupDecl (consume1 s).scopes ((curTok s).text) <;> intro h
          · exact absurd h (by simp [pfatal])
          · rename_i d
            have hdt : d.scopeTyped = true :=
              lookupDecl_scopeTyped _ _ _ hsc hd
            have hr := ihp _ (consume1 s) e s2 hsc
              (by simp [Expr.wf, hdt, Decl.scopeTyped_isSome d hdt]) h
            exact ⟨hr.1, hr.2⟩
        all_goals exact absurd h (by simp [pfatal])
      · intro lhs s e s2 hsc hwf h0
        simp only [ParsePostfixExpr] at h0
        obtain ⟨c, st, hT, h1⟩ := ok_of_bind h0
        clear h0
        simp only [getCurTok] at hT
        injection hT with hTa hTb
        subst hTa; subst hTb
        revert h1
        cases hk : (curTok s).kind <;> intro h1
        case LeftParen =>
          obtain ⟨u, su, hu, hA⟩ := ok_of_bind h1
          clear h1
          injection hu with hueq h2b; subst h2b
          obtain ⟨c2, st2, hT2, hB⟩ := ok_of_bind hA
          clear hA
          simp only [getCurTok] at hT2
          injection hT2 with h3 h4
          subst h3; subst h4
          revert hwf hB
          cases lhs
          case DeclRefExpr t d =>
            intro hwf hB
            cases d with
            | VarDecl nm vt vi =>
              rw [iteM_apply] at hB
              split at hB <;>
                (obtain ⟨args, sa, hargs, hC⟩ := ok_of_bind hB
                 exact absurd hC (by simp [pfatal]))
            | FunctionDecl nm fty ret prms bdy =>
              simp only [Expr.wf, Decl.scopeTyped, Bool.and_eq_true] at hwf
              rw [iteM_apply] at hB
              split at hB
              · obtain ⟨args, sa, hargs, hC⟩ := ok_of_bind hB
                injection hargs with ha hb
                subst ha; subst hb
                obtain ⟨u2, sm, hm, hD⟩ := ok_of_bind hC
                have hsm := MustConsume_ok hm
                subst hsm
                have hr := ihp _ (consume1 (consume1 s)) e s2 hsc
                  (by simp [Expr.wf, Decl.scopeTyped, Decl.GetType, exprsWf,
                        hwf.2]) hD
                exact ⟨hr.1, hr.2⟩
              · obtain ⟨args, sa, hargs, hC⟩ := ok_of_bind hB
                have hargsOK := ihl [] (consume1 s) args sa hsc rfl hargs
                obtain ⟨u2, sm, hm, hD⟩ := ok_of_bind hC
                have hsm := MustConsume_ok hm
                subst hsm
                have hr := ihp _ (consume1 sa) e s2
                  (by show scopesTyped sa.scopes = true
                      rw [hargsOK.2]; exact hsc)
                  (by simp [Expr.wf, Decl.scopeTyped, Decl.GetType,
                        hargsOK.1, hwf.2]) hD
                refine ⟨hr.1, ?_⟩
                have h5 : s2.scopes = sa.scopes := hr.2
                rw [h5, hargsOK.2]
                rfl
          all_goals
            (intro hwf hB
             rw [iteM_apply] at hB
             split at hB <;>
               (obtain ⟨args, sa, hargs, hC⟩ := ok_of_bind hB
                exact absurd hC (by simp [pfatal])))
        case PlusPlus =>
          obtain ⟨u, su, hu, hA⟩ := ok_of_bind h1
          clear h1
          injection hu with hueq h2b; subst h2b
          obtain ⟨t2, s1b, hg, hB⟩ := ok_of_bind hA
          clear hA
          obtain ⟨hg1, hg2⟩ := ExprGetType_ok hg
          subst hg2
          have hr := ihp _ (consume1 s) e s2 hsc (by simp [Expr.wf, hwf]) hB
          exact ⟨hr.1, hr.2⟩
        case MinusMinus =>
          obtain ⟨u, su, hu, hA⟩ := ok_of_bind h1
          clear h1
          injection hu with hueq h2b; subst h2b
          obtain ⟨t2, s1b, hg, hB⟩ := ok_of_bind hA
          clear hA
          obtain ⟨hg1, hg2⟩ := ExprGetType_ok hg
          subst hg2
          have hr := ihp _ (consume1 s) e s2 hsc (by simp [Expr.wf, hwf]) hB
          exact ⟨hr.1, hr.2⟩
        case Arrow => exact absurd h1 (by simp [pfatal])
        case Period => exact absurd h1 (by simp [pfatal])
        all_goals
          (injection h1 with hx hy
           subst hx; subst hy
           exact ⟨hwf, rfl⟩)
      · intro acc s es s2 hsc hacc h0
        simp only [ParseExprListLoop] at h0
        obtain ⟨e1, s1, he1, h1⟩ := ok_of_bind h0
        clear h0
        have hE := iha s e1 s1 hsc he1
        obtain ⟨c, st, hT, h2⟩ := ok_of_bind h1
        clear h1
        simp only [getCurTok] at hT
        injection hT with hTa hTb
        subst hTa; subst hTb
        rw [iteM_apply] at h2
        split at h2
        · obtain ⟨u, sm, hm, h3⟩ := ok_of_bind h2
          clear h2
          have hsm := MustConsume_ok hm
          subst hsm
          have hr := ihl (acc ++ [e1]) (consume1 s1) es s2
            (by show scopesTyped s1.scopes = true
                rw [hE.2]; exact hsc)
            (by rw [exprsWf_append, hacc, hE.1]; rfl) h3
          refine ⟨hr.1, ?_⟩
          have h5 : s2.scopes = s1.scopes := hr.2
          rw [h5, hE.2]
        · injection h2 with hx hy
          subst hx; subst hy
          exact ⟨by rw [exprsWf_append, hacc, hE.1]; rfl, hE.2⟩
      · intro lhs mp s e s2 hsc hwf h0
        simp only [ParseRhsOfBinaryExpr] at h0
        obtain ⟨c, st, hT, h1⟩ := ok_of_bind h0
        clear h0
        simp only [getCurTok] at hT
        injection hT with hTa hTb
        subst hTa; subst hTb
        rw [iteM_apply] at h1
        split at h1
        · injection h1 with hx hy
          subst hx; subst hy
          exact ⟨hwf, rfl⟩
        · obtain ⟨u, su, hu, hA⟩ := ok_of_bind h1
          clear h1
          injection hu with hueq h2b; subst h2b
          obtain ⟨rhs, s1, hr1, hB⟩ := ok_of_bind hA
          clear hA
          have hR := ihc (consume1 s) rhs s1 hsc hr1
          obtain ⟨c2, st2, hT2, hC⟩ := ok_of_bind hB
          clear hB
          simp only [getCurTok] at hT2
          injection hT2 with h3 h4
          subst h3; subst h4
          have key : ∀ (rhs2 : Expr) (s1b : PState), rhs2.wf = true →
              s1b.scopes = s.scopes →
              ((do
                let lt ← ExprGetType lhs
                match ConvertOpToKind (curTok s).kind with
                | none => pfatal "unimplemented binary operator"
                | some op =>
                    ParseRhsOfBinaryExpr n (Expr.BinaryExpr (some lt) op lhs rhs2) mp
                : M Expr) s1b = .ok e s2) →
              e.wf = true ∧ s2.scopes = s.scopes := by
            intro rhs2 s1b hw2 hsb hE
            obtain ⟨lt, s1c, hlt, hF⟩ := ok_of_bind hE
            clear hE
            obtain ⟨hlt1, hlt2⟩ := ExprGetType_ok hlt
            rw [hlt2] at hF
            revert hF
            cases hop : ConvertOpToKind (curTok s).kind <;> intro hF
            · exact absurd hF (by simp [pfatal])
            · rename_i op
              have hr := ihr (Expr.BinaryExpr (some lt) op lhs rhs2) mp s1b e s2
                (by rw [hsb]; exact hsc) (by simp [Expr.wf, hwf, hw2]) hF
              exact ⟨hr.1, hr.2.trans hsb⟩
          rw [iteM_apply] at hC
          split at hC
          · obtain ⟨rhs2, s1b, hr2, hE⟩ := ok_of_bind hC
            clear hC
            have hR2 := ihr rhs (GetBinOpPrecedence (curTok s).kind) s1 rhs2 s1b
              (by rw [hR.2]; exact hsc) hR.1 hr2
            exact key rhs2 s1b hR2.1 (hR2.2.trans hR.2) hE
          · obtain ⟨rhs2, s1b, hr2, hE⟩ := ok_of_bind hC
            clear hC
            injection hr2 with hx hy
            subst hx; subst hy
            exact key rhs s1 hR.1 hR.2 hE
      · intro s e s2 hsc h0
        simp only [ParseAssignmentExpr] at h0
        obtain ⟨e1, s1, he1, h1⟩ := ok_of_bind h0
        clear h0
        have h2 := ihc s e1 s1 hsc he1
        have hr := ihr e1 .Assignment s1 e s2 (by rw [h2.2]; exact hsc) h2.1 h1
        exact ⟨hr.1, hr.2.trans h2.2⟩
      · intro s e s2 hsc h0
        simp only [ParseExpr] at h0
        obtain ⟨e1, s1, he1, h1⟩ := ok_of_bind h0
        clear h0
        have h2 := iha s e1 s1 hsc he1
        have hr := ihr e1 .Assignment s1 e s2 (by rw [h2.2]; exact hsc) h2.1 h1
        exact ⟨hr.1, hr.2.trans h2.2⟩
theorem ParsePostfixExpr_stop (fuel : Nat) (lhs : Expr) (s : PState) (k : TokenKind)
    (hk : (curTok s).kind = k)
    (h1 : k ≠ .LeftParen) (h2 : k ≠ .PlusPlus) (h3 : k ≠ .MinusMinus)
    (h4 : k ≠ .Arrow) (h5 : k ≠ .Period) :
    ParsePostfixExpr (fuel+1) lhs s = .ok lhs s := by
  simp only [ParsePostfixExpr, bind_apply, getCurTok, hk]
  cases k <;>
    first
      | exact absurd rfl h1
      | exact absurd rfl h2
      | exact absurd rfl h3
      | exact absurd rfl h4
      | exact absurd rfl h5
      | rfl

theorem ParseRhsOfBinaryExpr_stop (fuel : Nat) (lhs : Expr) (minPrec : BinOpPreLevel)
    (s : PState) (k : TokenKind) (hk : (curTok s).kind = k)
    (h : (GetBinOpPrecedence k).toNat < minPrec.toNat) :
    ParseRhsOfBinaryExpr (fuel+1) lhs minPrec s = .ok lhs s := by
  simp only [ParseRhsOfBinaryExpr, bind_apply, getCurTok, hk]
  rw [if_pos h]
  rfl

theorem ParseCastExpr_ident (fuel : Nat) (n : String) (rest : List Token)
    (sc : List Scope) (d : Decl) (h : lookupDecl sc n = some d) :
    ParseCastExpr (fuel+1) { toks := tokT .Identifier n :: rest, scopes := sc } =
      ParsePostfixExpr fuel (Expr.DeclRefExpr d.GetType d) { toks := rest, scopes := sc } := by
  simp only [ParseCastExpr, bind_apply, getCurTok, curTok, tokT, doConsume,
    consume1, List.tail_cons, LookupM, h]

theorem ParseRhsOfBinaryExpr_step_noclimb (fuel : Nat) (lhs rhs : Expr)
    (minPrec : BinOpPreLevel) (opT : Token) (rest : List Token) (sc : List Scope)
    (s2 : PState) (lt : Ty) (op : BinaryOperatorKind) (k2 : TokenKind)
    (hp : ¬((GetBinOpPrecedence opT.kind).toNat < minPrec.toNat))
    (hcast : ParseCastExpr fuel { toks := rest, scopes := sc } = .ok rhs s2)
    (hk2 : (curTok s2).kind = k2)
    (hnc : (decide ((GetBinOpPrecedence opT.kind).toNat <
        (GetBinOpPrecedence k2).toNat) ||
      (GetBinOpPrecedence opT.kind == GetBinOpPrecedence k2 &&
        (GetBinOpPrecedence opT.kind == BinOpPreLevel.Conditional ||
         GetBinOpPrecedence opT.kind == BinOpPreLevel.Assignment))) = false)
    (hlt : lhs.tyField = some lt)
    (hop : ConvertOpToKind opT.kind = some op) :
    ParseRhsOfBinaryExpr (fuel+1) lhs minPrec { toks := opT :: rest, scopes := sc } =
      ParseRhsOfBinaryExpr fuel (Expr.BinaryExpr (some lt) op lhs rhs) minPrec s2 := by
  simp only [ParseRhsOfBinaryExpr, bind_apply, pure_apply, getCurTok, curTok,
    doConsume, consume1, List.tail_cons]
  rw [if_neg hp]
  simp only [bind_apply, pure_apply, getCurTok, doConsume, consume1,
    List.tail_cons, hcast, hk2]
  rw [hnc]
  simp only [Bool.false_eq_true, if_false, bind_apply, pure_apply, ExprGetType,
    hlt, hop]

theorem ParseRhsOfBinaryExpr_step_climb (fuel : Nat) (lhs rhs rhs2 : Expr)
    (minPrec : BinOpPreLevel) (opT : Token) (rest : List Token) (sc : List Scope)
    (s2 s3 : PState) (lt : Ty) (op : BinaryOperatorKind) (k2 : TokenKind)
    (hp : ¬((GetBinOpPrecedence opT.kind).toNat < minPrec.toNat))
    (hcast : ParseCastExpr fuel { toks := rest, scopes := sc } = .ok rhs s2)
    (hk2 : (curTok s2).kind = k2)
    (hc : (decide ((GetBinOpPrecedence opT.kind).toNat <
        (GetBinOpPrecedence k2).toNat) ||
      (GetBinOpPrecedence opT.kind == GetBinOpPrecedence k2 &&
        (GetBinOpPrecedence opT.kind == BinOpPreLevel.Conditional ||
         GetBinOpPrecedence opT.kind == BinOpPreLevel.Assignment))) = true)
    (hinner : ParseRhsOfBinaryExpr fuel rhs (GetBinOpPrecedence opT.kind) s2 = .ok rhs2 s3)
    (hlt : lhs.tyField = some lt)
    (hop : ConvertOpToKind opT.kind = some op) :
    ParseRhsOfBinaryExpr (fuel+1) lhs minPrec { toks := opT :: rest, scopes := sc } =
      ParseRhsOfBinaryExpr fuel (Expr.BinaryExpr (some lt) op lhs rhs2) minPrec s3 := by
  simp only [ParseRhsOfBinaryExpr, bind_apply, pure_apply, getCurTok, curTok,
    doConsume, consume1, List.tail_cons]
  rw [if_neg hp]
  simp only [bind_apply, pure_apply, getCurTok, doConsume, consume1,
    List.tail_cons, hcast, hk2]
  rw [hc]
  simp only [if_true, bind_apply, pure_apply, hinner, ExprGetType, hlt, hop]

theorem assign_grouping (na nb nc : String) (ta tb tc : Ty) (sc : List Scope)
    (ha : lookupDecl sc na = some (Decl.VarDecl na (some ta) none))
    (hb : lookupDecl sc nb = some (Decl.VarDecl nb (some tb) none))
    (hc : lookupDecl sc nc = some (Decl.VarDecl nc (some tc) none)) :
    ParseExpr 12 { toks := [tokT .Identifier na, tok .Equal, tokT .Identifier nb, tok .Equal, tokT .Identifier nc], scopes := sc } =
      .ok (Expr.BinaryExpr (some ta) .Equal (Expr.DeclRefExpr (some ta) (Decl.VarDecl na (some ta) none)) (Expr.BinaryExpr (some tb) .Equal (Expr.DeclRefExpr (some tb) (Decl.VarDecl nb (some tb) none)) (Expr.DeclRefExpr (some tc) (Decl.VarDecl nc (some tc) none)))) { toks := [], scopes := sc } := by
  have hca : ParseCastExpr 10 { toks := [tokT .Identifier na, tok .Equal, tokT .Identifier nb, tok .Equal, tokT .Identifier nc], scopes := sc } =
      .ok (Expr.DeclRefExpr (some ta) (Decl.VarDecl na (some ta) none)) { toks := [tok .Equal, tokT .Identifier nb, tok .Equal, tokT .Identifier nc], scopes := sc } := by
    rw [ParseCastExpr_ident 9 na _ sc _ ha]
    exact ParsePostfixExpr_stop 8 _ _ .Equal rfl (by decide) (by decide) (by decide) (by decide) (by decide)
  have hcb : ParseCastExpr 9 { toks := [tokT .Identifier nb, tok .Equal, tokT .Identifier nc], scopes := sc } =
      .ok (Expr.DeclRefExpr (some tb) (Decl.VarDecl nb (some tb) none)) { toks := [tok .Equal, tokT .Identifier nc], scopes := sc } := by
    rw [ParseCastExpr_ident 8 nb _ sc _ hb]
    exact ParsePostfixExpr_stop 7 _ _ .Equal rfl (by decide) (by decide) (by decide) (by decide) (by decide)
  have hcc : ParseCastExpr 8 { toks := [tokT .Identifier nc], scopes := sc } =
      .ok (Expr.DeclRefExpr (some tc) (Decl.VarDecl nc (some tc) none)) { toks := [], scopes := sc } := by
    rw [ParseCastExpr_ident 7 nc _ sc _ hc]
    exact ParsePostfixExpr_stop 6 _ _ .Eof rfl (by decide) (by decide) (by decide) (by decide) (by decide)
  have hr9 : ParseRhsOfBinaryExpr 9 (Expr.DeclRefExpr (some tb) (Decl.VarDecl nb (some tb) none)) .Assignment { toks := [tok .Equal, tokT .Identifier nc], scopes := sc } =
      .ok (Expr.BinaryExpr (some tb) .Equal (Expr.DeclRefExpr (some tb) (Decl.VarDecl nb (some tb) none)) (Expr.DeclRefExpr (some tc) (Decl.VarDecl nc (some tc) none))) { toks := [], scopes := sc } := by
    rw [ParseRhsOfBinaryExpr_step_noclimb 8 (Expr.DeclRefExpr (some tb) (Decl.VarDecl nb (some tb) none)) (Expr.DeclRefExpr (some tc) (Decl.VarDecl nc (some tc) none)) .Assignment (tok .Equal) [tokT .Identifier nc] sc { toks := [], scopes := sc } tb .Equal .Eof (by decide) hcc rfl (by decide) rfl rfl]
    exact ParseRhsOfBinaryExpr_stop 7 _ _ _ .Eof rfl (by decide)
  have hr10 : ParseRhsOfBinaryExpr 10 (Expr.DeclRefExpr (some ta) (Decl.VarDecl na (some ta) none)) .Assignment { toks := [tok .Equal, tokT .Identifier nb, tok .Equal, tokT .Identifier nc], scopes := sc } =
      .ok (Expr.BinaryExpr (some ta) .Equal (Expr.DeclRefExpr (some ta) (Decl.VarDecl na (some ta) none)) (Expr.BinaryExpr (some tb) .Equal (Expr.DeclRefExpr (some tb) (Decl.VarDecl nb (some tb) none)) (Expr.DeclRefExpr (some tc) (Decl.VarDecl nc (some tc) none)))) { toks := [], scopes := sc } := by
    rw [ParseRhsOfBinaryExpr_step_climb 9 (Expr.DeclRefExpr (some ta) (Decl.VarDecl na (some ta) none)) (Expr.DeclRefExpr (some tb) (Decl.VarDecl nb (some tb) none)) (Expr.BinaryExpr (some tb) .Equal (Expr.DeclRefExpr (some tb) (Decl.VarDecl nb (some tb) none)) (Expr.DeclRefExpr (some tc) (Decl.VarDecl nc (some tc) none))) .Assignment (tok .Equal) [tokT .Identifier nb, tok .Equal, tokT .Identifier nc] sc { toks := [tok .Equal, tokT .Identifier nc], scopes := sc } { toks := [], scopes := sc } ta .Equal .Equal (by decide) hcb rfl (by decide) hr9 rfl rfl]
    exact ParseRhsOfBinaryExpr_stop 8 _ _ _ .Eof rfl (by decide)
  have hr11 : ParseRhsOfBinaryExpr 11 (Expr.BinaryExpr (some ta) .Equal (Expr.DeclRefExpr (some ta) (Decl.VarDecl na (some ta) none)) (Expr.BinaryExpr (some tb) .Equal (Expr.DeclRefExpr (some tb) (Decl.VarDecl nb (some tb) none)) (Expr.DeclRefExpr (some tc) (Decl.VarDecl nc (some tc) none)))) .Assignment { toks := [], scopes := sc } =
      .ok (Expr.BinaryExpr (some ta) .Equal (Expr.DeclRefExpr (some ta) (Decl.VarDecl na (some ta) none)) (Expr.BinaryExpr (some tb) .Equal (Expr.DeclRefExpr (some tb) (Decl.VarDecl nb (some tb) none)) (Expr.DeclRefExpr (some tc) (Decl.VarDecl nc (some tc) none)))) { toks := [], scopes := sc } :=
    ParseRhsOfBinaryExpr_stop 10 _ _ _ .Eof rfl (by decide)
  simp only [ParseExpr, ParseAssignmentExpr, bind_apply, hca, hr10, hr11]

theorem addmul_grouping (na nb nc : String) (ta tb tc : Ty) (sc : List Scope)
    (ha : lookupDecl sc na = some (Decl.VarDecl na (some ta) none))
    (hb : lookupDecl sc nb = some (Decl.VarDecl nb (some tb) none))
    (hc : lookupDecl sc nc = some (Decl.VarDecl nc (some tc) none)) :
    ParseExpr 12 { toks := [tokT .Identifier na, tok .Plus, tokT .Identifier nb, tok .Star, tokT .Identifier nc], scopes := sc } =
      .ok (Expr.BinaryExpr (some ta) .Plus (Expr.DeclRefExpr (some ta) (Decl.VarDecl na (some ta) none)) (Expr.BinaryExpr (some tb) .Multiply (Expr.DeclRefExpr (some tb) (Decl.VarDecl nb (some tb) none)) (Expr.DeclRefExpr (some tc) (Decl.VarDecl nc (some tc) none)))) { toks := [], scopes := sc } := by
  have hca : ParseCastExpr 10 { toks := [tokT .Identifier na, tok .Plus, tokT .Identifier nb, tok .Star, tokT .Identifier nc], scopes := sc } =
      .ok (Expr.DeclRefExpr (some ta) (Decl.VarDecl na (some ta) none)) { toks := [tok .Plus, tokT .Identifier nb, tok .Star, tokT .Identifier nc], scopes := sc } := by
    rw [ParseCastExpr_ident 9 na _ sc _ ha]
    exact ParsePostfixExpr_stop 8 _ _ .Plus rfl (by decide) (by decide) (by decide) (by decide) (by decide)
  have hcb : ParseCastExpr 9 { toks := [tokT .Identifier nb, tok .Star, tokT .Identifier nc], scopes := sc } =
      .ok (Expr.DeclRefExpr (some tb) (Decl.VarDecl nb (some tb) none)) { toks := [tok .Star, tokT .Identifier nc], scopes := sc } := by
    rw [ParseCastExpr_ident 8 nb _ sc _ hb]
    exact ParsePostfixExpr_stop 7 _ _ .Star rfl (by decide) (by decide) (by decide) (by decide) (by decide)
  have hcc : ParseCastExpr 8 { toks := [tokT .Identifier nc], scopes := sc } =
      .ok (Expr.DeclRefExpr (some tc) (Decl.VarDecl nc (some tc) none)) { toks := [], scopes := sc } := by
    rw [ParseCastExpr_ident 7 nc _ sc _ hc]
    exact ParsePostfixExpr_stop 6 _ _ .Eof rfl (by decide) (by decide) (by decide) (by decide) (by decide)
  have hrm : ParseRhsOfBinaryExpr 9 (Expr.DeclRefExpr (some tb) (Decl.VarDecl nb (some tb) none)) .Additive { toks := [tok .Star, tokT .Identifier nc], scopes := sc } =
      .ok (Expr.BinaryExpr (some tb) .Multiply (Expr.DeclRefExpr (some tb) (Decl.VarDecl nb (some tb) none)) (Expr.DeclRefExpr (some tc) (Decl.VarDecl nc (some tc) none))) { toks := [], scopes := sc } := by
    rw [ParseRhsOfBinaryExpr_step_noclimb 8 (Expr.DeclRefExpr (some tb) (Decl.VarDecl nb (some tb) none)) (Expr.DeclRefExpr (some tc) (Decl.VarDecl nc (some tc) none)) .Additive (tok .Star) [tokT .Identifier nc] sc { toks := [], scopes := sc } tb .Multiply .Eof (by decide) hcc rfl (by decide) rfl rfl]
    exact ParseRhsOfBinaryExpr_stop 7 _ _ _ .Eof rfl (by decide)
  have hr10 : ParseRhsOfBinaryExpr 10 (Expr.DeclRefExpr (some ta) (Decl.VarDecl na (some ta) none)) .Assignment { toks := [tok .Plus, tokT .Identifier nb, tok .Star, tokT .Identifier nc], scopes := sc } =
      .ok (Expr.BinaryExpr (some ta) .Plus (Expr.DeclRefExpr (some ta) (Decl.VarDecl na (some ta) none)) (Expr.BinaryExpr (some tb) .Multiply (Expr.DeclRefExpr (some tb) (Decl.VarDecl nb (some tb) none)) (Expr.DeclRefExpr (some tc) (Decl.VarDecl nc (some tc) none)))) { toks := [], scopes := sc } := by
    rw [ParseRhsOfBinaryExpr_step_climb 9 (Expr.DeclRefExpr (some ta) (Decl.VarDecl na (some ta) none)) (Expr.DeclRefExpr (some tb) (Decl.VarDecl nb (some tb) none)) (Expr.BinaryExpr (some tb) .Multiply (Expr.DeclRefExpr (some tb) (Decl.VarDecl nb (some tb) none)) (Expr.DeclRefExpr (some tc) (Decl.VarDecl nc (some tc) none))) .Assignment (tok .Plus) [tokT .Identifier nb, tok .Star, tokT .Identifier nc] sc { toks := [tok .Star, tokT .Identifier nc], scopes := sc } { toks := [], scopes := sc } ta .Plus .Star (by decide) hcb rfl (by decide) hrm rfl rfl]
    exact ParseRhsOfBinaryExpr_stop 8 _ _ _ .Eof rfl (by decide)
  have hr11 : ParseRhsOfBinaryExpr 11 (Expr.BinaryExpr (some ta) .Plus (Expr.DeclRefExpr (some ta) (Decl.VarDecl na (some ta) none)) (Expr.BinaryExpr (some tb) .Multiply (Expr.DeclRefExpr (some tb) (Decl.VarDecl nb (some tb) none)) (Expr.DeclRefExpr (some tc) (Decl.VarDecl nc (some tc) none)))) .Assignment { toks := [], scopes := sc } =
      .ok (Expr.BinaryExpr (some ta) .Plus (Expr.DeclRefExpr (some ta) (Decl.VarDecl na (some ta) none)) (Expr.BinaryExpr (some tb) .Multiply (Expr.DeclRefExpr (some tb) (Decl.VarDecl nb (some tb) none)) (Expr.DeclRefExpr (some tc) (Decl.VarDecl nc (some tc) none)))) { toks := [], scopes := sc } :=
    ParseRhsOfBinaryExpr_stop 10 _ _ _ .Eof rfl (by decide)
  simp only [ParseExpr, ParseAssignmentExpr, bind_apply, hca, hr10, hr11]

theorem relational_grouping (na nb nc : String) (ta tb tc : Ty) (sc : List Scope)
    (ha : lookupDecl sc na = some (Decl.VarDecl na (some ta) none))
    (hb : lookupDecl sc nb = some (Decl.VarDecl nb (some tb) none))
    (hc : lookupDecl sc nc = some (Decl.VarDecl nc (some tc) none)) :
    ParseExpr 12 { toks := [tokT .Identifier na, tok .Less, tokT .Identifier nb, tok .EqualEqual, tokT .Identifier nc], scopes := sc } =
      .ok (Expr.BinaryExpr (some ta) .EqualEqual (Expr.BinaryExpr (some ta) .Less (Expr.DeclRefExpr (some ta) (Decl.VarDecl na (some ta) none)) (Expr.DeclRefExpr (some tb) (Decl.VarDecl nb (some tb) none))) (Expr.DeclRefExpr (some tc) (Decl.VarDecl nc (some tc) none))) { toks := [], scopes := sc } := by
  have hca : ParseCastExpr 10 { toks := [tokT .Identifier na, tok .Less, tokT .Identifier nb, tok .EqualEqual, tokT .Identifier nc], scopes := sc } =
      .ok (Expr.DeclRefExpr (some ta) (Decl.VarDecl na (some ta) none)) { toks := [tok .Less, tokT .Identifier nb, tok .EqualEqual, tokT .Identifier nc], scopes := sc } := by
    rw [ParseCastExpr_ident 9 na _ sc _ ha]
    exact ParsePostfixExpr_stop 8 _ _ .Less rfl (by decide) (by decide) (by decide) (by decide) (by decide)
  have hcb : ParseCastExpr 9 { toks := [tokT .Identifier nb, tok .EqualEqual, tokT .Identifier nc], scopes := sc } =
      .ok (Expr.DeclRefExpr (some tb) (Decl.VarDecl nb (some tb) none)) { toks := [tok .EqualEqual, tokT .Identifier nc], scopes := sc } := by
    rw [ParseCastExpr_ident 8 nb _ sc _ hb]
    exact ParsePostfixExpr_stop 7 _ _ .EqualEqual rfl (by decide) (by decide) (by decide) (by decide) (by decide)
  have hcc : ParseCastExpr 8 { toks := [tokT .Identifier nc], scopes := sc } =
      .ok (Expr.DeclRefExpr (some tc) (Decl.VarDecl nc (some tc) none)) { toks := [], scopes := sc } := by
    rw [ParseCastExpr_ident 7 nc _ sc _ hc]
    exact ParsePostfixExpr_stop 6 _ _ .Eof rfl (by decide) (by decide) (by decide) (by decide) (by decide)
  have hr10 : ParseRhsOfBinaryExpr 10 (Expr.DeclRefExpr (some ta) (Decl.VarDecl na (some ta) none)) .Assignment { toks := [tok .Less, tokT .Identifier nb, tok .EqualEqual, tokT .Identifier nc], scopes := sc } =
      .ok (Expr.BinaryExpr (some ta) .EqualEqual (Expr.BinaryExpr (some ta) .Less (Expr.DeclRefExpr (some ta) (Decl.VarDecl na (some ta) none)) (Expr.DeclRefExpr (some tb) (Decl.VarDecl nb (some tb) none))) (Expr.DeclRefExpr (some tc) (Decl.VarDecl nc (some tc) none))) { toks := [], scopes := sc } := by
    rw [ParseRhsOfBinaryExpr_step_noclimb 9 (Expr.DeclRefExpr (some ta) (Decl.VarDecl na (some ta) none)) (Expr.DeclRefExpr (some tb) (Decl.VarDecl nb (some tb) none)) .Assignment (tok .Less) [tokT .Identifier nb, tok .EqualEqual, tokT .Identifier nc] sc { toks := [tok .EqualEqual, tokT .Identifier nc], scopes := sc } ta .Less .EqualEqual (by decide) hcb rfl (by decide) rfl rfl]
    rw [ParseRhsOfBinaryExpr_step_noclimb 8 (Expr.BinaryExpr (some ta) .Less (Expr.DeclRefExpr (some ta) (Decl.VarDecl na (some ta) none)) (Expr.DeclRefExpr (some tb) (Decl.VarDecl nb (some tb) none))) (Expr.DeclRefExpr (some tc) (Decl.VarDecl nc (some tc) none)) .Assignment (tok .EqualEqual) [tokT .Identifier nc] sc { toks := [], scopes := sc } ta .EqualEqual .Eof (by decide) hcc rfl (by decide) rfl rfl]
    exact ParseRhsOfBinaryExpr_stop 7 _ _ _ .Eof rfl (by decide)
  have hr11 : ParseRhsOfBinaryExpr 11 (Expr.BinaryExpr (some ta) .EqualEqual (Expr.BinaryExpr (some ta) .Less (Expr.DeclRefExpr (some ta) (Decl.VarDecl na (some ta) none)) (Expr.DeclRefExpr (some tb) (Decl.VarDecl nb (some tb) none))) (Expr.DeclRefExpr (some tc) (Decl.VarDecl nc (some tc) none))) .Assignment { toks := [], scopes := sc } =
      .ok (Expr.BinaryExpr (some ta) .EqualEqual (Expr.BinaryExpr (some ta) .Less (Expr.DeclRefExpr (some ta) (Decl.VarDecl na (some ta) none)) (Expr.DeclRefExpr (some tb) (Decl.VarDecl nb (some tb) none))) (Expr.DeclRefExpr (some tc) (Decl.VarDecl nc (some tc) none))) { toks := [], scopes := sc } :=
    ParseRhsOfBinaryExpr_stop 10 _ _ _ .Eof rfl (by decide)
  simp only [ParseExpr, ParseAssignmentExpr, bind_apply, hca, hr10, hr11]

theorem SkipUntilLoop_fuelOut (k : TokenKind) (hk : k ≠ .Eof) :
    ∀ (fuel : Nat) (toks : List Token) (sc : List Scope),
      k ∉ toks.map Token.kind →
      SkipUntilLoop fuel k { toks := toks, scopes := sc } = .fuelOut := by
  intro fuel
  induction fuel with
  | zero => intro toks sc _; rfl
  | succ n ih =>
    intro toks sc hmem
    cases toks with
    | nil =>
      simp only [SkipUntilLoop, curTok]
      rw [if_neg (fun h => hk h.symm)]
      exact ih [] sc hmem
    | cons t rest =>
      simp only [SkipUntilLoop, curTok]
      rw [if_neg (fun h => hmem (by simp [h.symm]))]
      exact ih rest sc (fun h => hmem (by simp; right; simpa using h))

theorem SkipUntilLoop_ok_of (k : TokenKind) :
    ∀ (toks : List Token) (sc : List Scope),
      (k = .Eof ∨ k ∈ toks.map Token.kind) →
      ∃ fuel s2, SkipUntilLoop fuel k { toks := toks, scopes := sc } = .ok () s2 := by
  intro toks
  induction toks with
  | nil =>
    intro sc h
    refine ⟨1, { toks := [], scopes := sc }, ?_⟩
    rcases h with h | h
    · simp [SkipUntilLoop, curTok, h]
    · simp at h
  | cons t rest ih =>
    intro sc h
    by_cases ht : t.kind = k
    · exact ⟨1, { toks := t :: rest, scopes := sc }, by simp [SkipUntilLoop, curTok, ht]⟩
    · have h2 : k = .Eof ∨ k ∈ rest.map Token.kind := by
        rcases h with h | h
        · exact Or.inl h
        · simp at h
          rcases h with h | h
          · exact absurd h.symm ht
          · exact Or.inr (by simpa using h)
      obtain ⟨fuel, s2, hf⟩ := ih sc h2
      refine ⟨fuel + 1, s2, ?_⟩
      simp only [SkipUntilLoop, curTok]
      rw [if_neg ht]
      exact hf

theorem SkipUntilLoop_ok_imp (k : TokenKind) :
    ∀ (fuel : Nat) (toks : List Token) (sc : List Scope) (s2 : PState),
      SkipUntilLoop fuel k { toks := toks, scopes := sc } = .ok () s2 →
      k = .Eof ∨ k ∈ toks.map Token.kind := by
  intro fuel
  induction fuel with
  | zero => intro toks sc s2 h; exact absurd h (by simp [SkipUntilLoop])
  | succ n ih =>
    intro toks sc s2 h
    cases toks with
    | nil =>
      simp only [SkipUntilLoop, curTok] at h
      by_cases he : (TokenKind.Eof = k)
      · exact Or.inl he.symm
      · rw [if_neg he] at h
        exact ih [] sc s2 h
    | cons t rest =>
      simp only [SkipUntilLoop, curTok] at h
      by_cases ht : (t.kind = k)
      · exact Or.inr (by simp [ht])
      · rw [if_neg ht] at h
        rcases ih rest sc s2 h with h2 | h2
        · exact Or.inl h2
        · exact Or.inr (by simp; right; simpa using h2)

theorem SkipUntil_terminates_iff (k : TokenKind) (sm : Bool) (toks : List Token)
    (sc : List Scope) :
    (∃ fuel s2, SkipUntil fuel k sm { toks := toks, scopes := sc } = .ok () s2) ↔
      (k = .Eof ∨ k ∈ toks.map Token.kind) := by
  constructor
  · rintro ⟨f, s2, h⟩
    simp only [SkipUntil, bind_apply] at h
    cases hl : SkipUntilLoop f k { toks := toks, scopes := sc } with
    | ok a s3 => exact SkipUntilLoop_ok_imp k f toks sc s3 hl
    | err e => rw [hl] at h; cases h
    | fuelOut => rw [hl] at h; cases h
  · intro h
    obtain ⟨f, s2, hf⟩ := SkipUntilLoop_ok_of k toks sc h
    cases sm with
    | false => exact ⟨f, s2, by simp only [SkipUntil, bind_apply, hf]; rfl⟩
    | true =>
      by_cases hck : ((curTok s2).kind == k) = true
      · refine ⟨f, consume1 s2, ?_⟩
        simp only [SkipUntil, bind_apply, hf, if_true, getCurTok, hck]
        rfl
      · refine ⟨f, s2, ?_⟩
        simp only [SkipUntil, bind_apply, hf, if_true, getCurTok]
        rw [if_neg hck]
        rfl


/-- C1: parsing `int main(void) { return 0; }` yields exactly one
declaration: a function `main` of type `int(void)` with an empty
parameter list whose body is a compound statement holding a single
`return 0;` whose value is the integer literal 0 of type `int`. -/
theorem C1_int_main_parse :
    ParseTranslateUnit 50 (initState toksIntMain) =
      .ok [Decl.FunctionDecl "main" (Ty.Func (some intTy) []) (some intTy) []
        (some (Stmt.CompoundStatement
          [Stmt.ReturnStatement (some (Expr.IntergerLiteral (some intTy) 0))]))]
        { toks := [], scopes := [] } := rfl

/-- C2: for any identifiers `a`, `b`, `c` bound to variables in scope,
`a = b = c` parses as `a = (b = c)` (assignment is right-associative),
`a + b * c` parses as `a + (b * c)` (multiplicative binds tighter than
additive), and `a < b == c` parses as `(a < b) == c` (relational binds
tighter than equality). -/
theorem C2_operator_precedence_grouping (na nb nc : String) (ta tb tc : Ty)
    (sc : List Scope)
    (ha : lookupDecl sc na = some (Decl.VarDecl na (some ta) none))
    (hb : lookupDecl sc nb = some (Decl.VarDecl nb (some tb) none))
    (hc : lookupDecl sc nc = some (Decl.VarDecl nc (some tc) none)) :
    (ParseExpr 12 { toks := [tokT .Identifier na, tok .Equal, tokT .Identifier nb, tok .Equal, tokT .Identifier nc], scopes := sc } =
      .ok (Expr.BinaryExpr (some ta) .Equal (Expr.DeclRefExpr (some ta) (Decl.VarDecl na (some ta) none)) (Expr.BinaryExpr (some tb) .Equal (Expr.DeclRefExpr (some tb) (Decl.VarDecl nb (some tb) none)) (Expr.DeclRefExpr (some tc) (Decl.VarDecl nc (some tc) none)))) { toks := [], scopes := sc }) ∧
    (ParseExpr 12 { toks := [tokT .Identifier na, tok .Plus, tokT .Identifier nb, tok .Star, tokT .Identifier nc], scopes := sc } =
      .ok (Expr.BinaryExpr (some ta) .Plus (Expr.DeclRefExpr (some ta) (Decl.VarDecl na (some ta) none)) (Expr.BinaryExpr (some tb) .Multiply (Expr.DeclRefExpr (some tb) (Decl.VarDecl nb (some tb) none)) (Expr.DeclRefExpr (some tc) (Decl.VarDecl nc (some tc) none)))) { toks := [], scopes := sc }) ∧
    (ParseExpr 12 { toks := [tokT .Identifier na, tok .Less, tokT .Identifier nb, tok .EqualEqual, tokT .Identifier nc], scopes := sc } =
      .ok (Expr.BinaryExpr (some ta) .EqualEqual (Expr.BinaryExpr (some ta) .Less (Expr.DeclRefExpr (some ta) (Decl.VarDecl na (some ta) none)) (Expr.DeclRefExpr (some tb) (Decl.VarDecl nb (some tb) none))) (Expr.DeclRefExpr (some tc) (Decl.VarDecl nc (some tc) none))) { toks := [], scopes := sc }) :=
  ⟨assign_grouping na nb nc ta tb tc sc ha hb hc,
   addmul_grouping na nb nc ta tb tc sc ha hb hc,
   relational_grouping na nb nc ta tb tc sc ha hb hc⟩

/-- C2 witness: the groupings at the concrete scope binding `a`, `b`,
`c` as `int` variables. -/
theorem C2_operator_precedence_grouping_witness :
    (lookupDecl cScope "a" = some (Decl.VarDecl "a" (some intTy) none)) ∧
    ((ParseExpr 12 { toks := [tokT .Identifier "a", tok .Equal, tokT .Identifier "b", tok .Equal, tokT .Identifier "c"], scopes := cScope } =
      .ok (Expr.BinaryExpr (some intTy) .Equal (Expr.DeclRefExpr (some intTy) (Decl.VarDecl "a" (some intTy) none)) (Expr.BinaryExpr (some intTy) .Equal (Expr.DeclRefExpr (some intTy) (Decl.VarDecl "b" (some intTy) none)) (Expr.DeclRefExpr (some intTy) (Decl.VarDecl "c" (some intTy) none)))) { toks := [], scopes := cScope }) ∧
    (ParseExpr 12 { toks := [tokT .Identifier "a", tok .Plus, tokT .Identifier "b", tok .Star, tokT .Identifier "c"], scopes := cScope } =
      .ok (Expr.BinaryExpr (some intTy) .Plus (Expr.DeclRefExpr (some intTy) (Decl.VarDecl "a" (some intTy) none)) (Expr.BinaryExpr (some intTy) .Multiply (Expr.DeclRefExpr (some intTy) (Decl.VarDecl "b" (some intTy) none)) (Expr.DeclRefExpr (some intTy) (Decl.VarDecl "c" (some intTy) none)))) { toks := [], scopes := cScope }) ∧
    (ParseExpr 12 { toks := [tokT .Identifier "a", tok .Less, tokT .Identifier "b", tok .EqualEqual, tokT .Identifier "c"], scopes := cScope } =
      .ok (Expr.BinaryExpr (some intTy) .EqualEqual (Expr.BinaryExpr (some intTy) .Less (Expr.DeclRefExpr (some intTy) (Decl.VarDecl "a" (some intTy) none)) (Expr.DeclRefExpr (some intTy) (Decl.VarDecl "b" (some intTy) none))) (Expr.DeclRefExpr (some intTy) (Decl.VarDecl "c" (some intTy) none))) { toks := [], scopes := cScope })) :=
  ⟨rfl, C2_operator_precedence_grouping "a" "b" "c" intTy intTy intTy cScope rfl rfl rfl⟩

/-- C3: the typedef machinery itself does install the alias — after
`typedef int T;` the scope maps `T` to `int`, and `IsType` is true for
`T` in that scope and in any deeper scope — but the top-level loop falls
through to `ParseFunctionOrVar` after `ParseTypedef` in the same
iteration, so the translation unit `typedef int T; T x;` aborts with
`MustConsumeToken` instead of parsing `x`. -/
theorem C3_typedef_visible_but_toplevel_aborts :
    ParseTypedef 10 { storage := .Typedef, tsk := .Int, ty := some intTy }
      { toks := [tokT .Identifier "T", tok .Semi], scopes := [{}] } =
      .ok () { toks := [], scopes := [{ decls := [], types := [("T", some intTy)] }] } ∧
    IsType [{ decls := [], types := [("T", some intTy)] }] (tokT .Identifier "T") = true ∧
    IsType ({} :: [{ decls := [], types := [("T", some intTy)] }]) (tokT .Identifier "T") = true ∧
    ParseTranslateUnit 60 (initState toksTypedefTx) = .err "MustConsumeToken" :=
  ⟨rfl, rfl, rfl, rfl⟩

/-- C4: `int x = 1, y, z = 3;` does not produce three declarations with
`x` and `z` initialised — the parser aborts with `MustConsumeToken`
because after an initialiser it demands `;` without checking for `,`;
moreover `int x, y, z = 3;` shows the single shared initialiser slot:
all three variables get the initialiser 3. -/
theorem C4_multi_declarator_initialisers :
    ParseTranslateUnit 60 (initState toksMultiInit) = .err "MustConsumeToken" ∧
    ParseTranslateUnit 60 (initState toksTailInit) =
      .ok [Decl.VarDecl "x" (some intTy) (some (Expr.IntergerLiteral (some intTy) 3)),
           Decl.VarDecl "y" (some intTy) (some (Expr.IntergerLiteral (some intTy) 3)),
           Decl.VarDecl "z" (some intTy) (some (Expr.IntergerLiteral (some intTy) 3))]
        { toks := [], scopes := [] } :=
  ⟨rfl, rfl⟩

/-- C5: the empty bracket form `int a[];` is rejected fatally with
"unimplemented array dimension" (ParseArrayDimensions tests for a right
PARENTHESIS, not a right square bracket), while the ill-bracketed
`int a[);` is the form it accepts, producing the array type of length
0. -/
theorem C5_array_dimension_bracket :
    ParseTranslateUnit 60 (initState toksEmptyBrackets) =
      .err "unimplemented array dimension" ∧
    ParseTranslateUnit 60 (initState toksBracketParen) =
      .ok [Decl.VarDecl "a" (some (Ty.Array (some intTy) 0)) none]
        { toks := [], scopes := [] } :=
  ⟨rfl, rfl⟩

/-- C6: a parameter declarator resolving to an array type is recorded as
a pointer to the element type and one resolving to a function type as a
pointer to that function type (for every specifier bag, declarator name
and type payload), and the two concrete translation units
`int f(int a[));` and `int g(int h(void));` show the decayed parameter
types end to end. -/
theorem C6_parameter_decay (dsp ds2 : DeclSpec) (nm : String)
    (elem ret : Option Ty) (len : Nat) (ps : List (Option Ty)) :
    (ParamDecayType dsp { declSpec := ds2, ty := some (Ty.Array elem len), name := nm } =
      some (some (Ty.Pointer elem))) ∧
    (ParamDecayType dsp { declSpec := ds2, ty := some (Ty.Func ret ps), name := nm } =
      some (some (Ty.Pointer (some (Ty.Func ret ps))))) ∧
    ParseTranslateUnit 60 (initState toksArrayParam) =
      .ok [Decl.FunctionDecl "f" (Ty.Func (some intTy) [some (Ty.Pointer (some intTy))])
        (some intTy) [Decl.VarDecl "" (some (Ty.Pointer (some intTy))) none] none]
        { toks := [], scopes := [] } ∧
    ParseTranslateUnit 60 (initState toksFuncParam) =
      .ok [Decl.FunctionDecl "g" (Ty.Func (some intTy) [some (Ty.Pointer (some (Ty.Func (some intTy) [])))])
        (some intTy) [Decl.VarDecl "" (some (Ty.Pointer (some (Ty.Func (some intTy) [])))) none] none]
        { toks := [], scopes := [] } :=
  ⟨rfl, rfl, rfl, rfl⟩

/-- C7 (amended): when every declaration in scope carries a non-null
type, every expression the expression parser returns has a non-null
type on every node.  (The unamended claim is false: see the
counterexample, a call through a function declared without a return
type in the AST.) -/
theorem C7_parsed_exprs_have_types (fuel : Nat) (s : PState) (e : Expr)
    (s2 : PState) (hsc : scopesTyped s.scopes = true)
    (h : ParseExpr fuel s = .ok e s2) :
    e.noNullTy = true :=
  Expr.wf_noNull e ((ExprFamilyWf fuel).2.2.2.2.2 s e s2 hsc h).1

/-- C7 witness: the literal `1` parsed from an empty scope stack. -/
theorem C7_parsed_exprs_have_types_witness :
    scopesTyped (initState [tokT .NumericConstant "1"]).scopes = true ∧
    (Expr.IntergerLiteral (some GetIntType) 1).noNullTy = true :=
  ⟨rfl, C7_parsed_exprs_have_types 5 (initState [tokT .NumericConstant "1"])
    (Expr.IntergerLiteral (some GetIntType) 1) { toks := [], scopes := [] } rfl rfl⟩

/-- C7 counterexample: for `f(); int main(void) { return f(); }` the
returned translation unit contains a `CallExpr` whose type is null (the
callee `f` comes from the fall-through declaration whose return type
slot is null), refuting the unamended claim. -/
theorem C7_null_typed_call_counterexample :
    ResultHasNullTypedExpr (ParseTranslateUnit 80 (initState toksNullCall)) = true := rfl

/-- C8 (amended): declaration-specifier parsing never returns a
`DeclSpec` holding the `typedef` storage class together with `inline`.
(The unamended claim — that typedef plus `static`, `extern` or
`_Thread_local` aborts — is false: a later storage-class keyword
overwrites the single storage field, see the counterexample.) -/
theorem C8_typedef_inline_exclusive (fuel : Nat) (s : PState) (ds : DeclSpec)
    (s2 : PState) (h : ParseDeclSpec fuel s = .ok ds s2) :
    ¬(ds.storage = .Typedef ∧ ds.funcSpec = .Inline) := by
  cases fuel with
  | zero => exact absurd h (by simp [ParseDeclSpec])
  | succ n =>
    exact ParseDeclSpecLoop_typedef_inline n {} s ds s2
      (fun hP => by cases hP.1) h

/-- C8 witness: the specifier bag of plain `int`. -/
theorem C8_typedef_inline_exclusive_witness :
    ¬(dsInt.storage = .Typedef ∧ dsInt.funcSpec = .Inline) :=
  C8_typedef_inline_exclusive 5 (initState [tok .Int]) dsInt
    { toks := [], scopes := [] } rfl

/-- C8 counterexample: `typedef int static x;` is accepted — the whole
translation unit parses without aborting (the `static` overwrites the
`typedef` storage class, so the declaration is dropped silently),
refuting the claim that the combination aborts fatally. -/
theorem C8_typedef_static_accepted_counterexample :
    ParseTranslateUnit 60 (initState toksTypedefStatic) =
      .ok [] { toks := [], scopes := [] } := rfl

/-- C9 (amended): among operator tokens whose precedence admits them
into the binary-expression loop at the `Assignment` threshold or above,
`ConvertOpToKind` succeeds exactly on the fourteen convertible tokens,
and an admitted but unconvertible operator such as `%` aborts with
"unimplemented binary operator".  (The unamended claim is false for the
comma operator, which sits below the threshold: see the
counterexample.) -/
theorem C9_admitted_operators_convert_or_abort (tk : TokenKind)
    (h : BinOpPreLevel.Assignment.toNat ≤ (GetBinOpPrecedence tk).toNat) :
    ((ConvertOpToKind tk).isSome ↔ tk ∈ convertibleOpTokens) ∧
    ParseExpr 30 (initState toksOnePercentTwo) =
      .err "unimplemented binary operator" := by
  refine ⟨?_, rfl⟩
  revert h
  cases tk <;> decide

/-- C9 witness: the `%` token is admitted by the precedence table and is
not convertible. -/
theorem C9_admitted_operators_convert_or_abort_witness :
    (BinOpPreLevel.Assignment.toNat ≤ (GetBinOpPrecedence TokenKind.Percent).toNat) ∧
    (((ConvertOpToKind TokenKind.Percent).isSome ↔ TokenKind.Percent ∈ convertibleOpTokens) ∧
     ParseExpr 30 (initState toksOnePercentTwo) =
       .err "unimplemented binary operator") :=
  ⟨by decide, C9_admitted_operators_convert_or_abort .Percent (by decide)⟩

/-- C9 counterexample: the comma operator has a precedence-table entry
(it is not `Unknown`) and no conversion, yet `int main(void) { return
1, 2; }` does not abort: the parser returns `return 1;` and silently
skips `, 2`. -/
theorem C9_comma_counterexample :
    GetBinOpPrecedence .Comma ≠ .Unknown ∧
    ConvertOpToKind .Comma = none ∧
    ParseTranslateUnit 60 (initState toksReturnComma) =
      .ok [Decl.FunctionDecl "main" (Ty.Func (some intTy) []) (some intTy) []
        (some (Stmt.CompoundStatement
          [Stmt.ReturnStatement (some (Expr.IntergerLiteral (some intTy) 1))]))]
        { toks := [], scopes := [] } :=
  ⟨by decide, rfl, rfl⟩

/-- C10: `SkipUntil` terminates (returns with some fuel) exactly when
the requested kind is `Eof` or occurs in the remaining token stream; and
when the kind never occurs and is not `Eof`, the loop runs forever
(every fuel bound is exhausted). -/
theorem C10_skipuntil_terminates (k : TokenKind) (sm : Bool)
    (toks : List Token) (sc : List Scope) :
    ((∃ fuel s2, SkipUntil fuel k sm { toks := toks, scopes := sc } = .ok () s2) ↔
      (k = .Eof ∨ k ∈ toks.map Token.kind)) ∧
    (k ≠ .Eof → k ∉ toks.map Token.kind →
      ∀ fuel, SkipUntil fuel k sm { toks := toks, scopes := sc } = .fuelOut) := by
  refine ⟨SkipUntil_terminates_iff k sm toks sc, ?_⟩
  intro hk hmem fuel
  simp only [SkipUntil, bind_apply, SkipUntilLoop_fuelOut k hk fuel toks sc hmem]
